import Mathlib

/-!
Shallow embedding of `src/logs/services.py` (class `StepsGenerator`) from the
dlogs_backend repository, together with proofs about it.

Modelling conventions:
* Python floats are modelled as rationals (`ℚ`); all arithmetic in the source
  acts on numbers produced from the inputs and the configuration constants, so
  the rational model computes the same values the Python code computes
  symbolically (no rounding).
* Python's `%` with a positive right operand is `pymod` below
  (`x - m * ⌊x / m⌋`, always in `[0, m)` for `m > 0`), matching CPython float
  modulo semantics for a positive modulus.
* The Django `settings` object is modelled as an explicit `Config` record; the
  code reads only the listed constants from it.
* The segment `status` strings `"DRIVING"`, `"ON_DUTY"`, `"OFF_DUTY"`,
  `"SLEEPER"` are modelled by the four-constructor enum `Status`; the label
  strings (`"OFF_DUTY"`, `"Pre-trip Inspection"`, `"Driving"`,
  `"Pickup Loading"`, `"Fueling"`, an f-string break label, `"10-hour Sleep"`,
  an f-string cycle-restart label, `"Drop-off Unloading"`) are modelled by the
  enum `Label`, one constructor per distinct call-site label.
* The `while` loop of `generate_steps` is modelled with explicit fuel
  (`loopGo`); termination for sufficient fuel is proved separately.
* `manage_create_segment` takes the caller's list through a mutable parameter
  in Python (it appends the pre-midnight part).  Here it returns the pair
  (list of segments it appended, returned segment); every caller in the
  source immediately appends the returned segment as well, which the model
  reproduces in `emit`.
-/

namespace Dlogs

/-- Duty status of a segment (the four status strings used by the source). -/
inductive Status where
  | DRIVING
  | ON_DUTY
  | OFF_DUTY
  | SLEEPER
deriving DecidableEq

/-- One constructor per distinct label string appearing at an emission site of
`services.py` (f-string labels are abstracted to their call site). -/
inductive Label where
  | offDuty
  | preTrip
  | driving
  | pickupLoading
  | fueling
  | breakRest
  | sleep
  | cycleRestart
  | dropOff
deriving DecidableEq

/-- Python `x % m` for floats with a positive modulus: the representative of
`x` modulo `m` lying in `[0, m)`. -/
def pymod (x m : ℚ) : ℚ := x - m * (⌊x / m⌋ : ℤ)

/-- The segment dictionary built by `StepsGenerator._create_segment`. -/
structure Segment where
  status : Status
  duration : ℚ
  label : Label
  start_hour : ℚ
  end_hour : ℚ
  elapsed_start : ℚ
  elapsed_end : ℚ
  day_number : ℤ
  miles_moved : ℚ
deriving DecidableEq

/-- The regulatory constants read from `django.conf.settings`. -/
structure Config where
  MAX_CYCLE_HOURS : ℚ
  MAX_DRIVING_PER_DAY : ℚ
  MAX_DRIVE_WINDOW : ℚ
  BREAK_AFTER : ℚ
  BREAK_DURATION : ℚ
  AVG_SPEED_MPH : ℚ
  PICKUP_TIME : ℚ
  DROPOFF_TIME : ℚ
  PRE_TRIP_INSPECTION_TIME : ℚ
  MILES_BEFORE_FUEL : ℚ
  FUELING_DURATION : ℚ
  SLEEPER_BREAK_HOURS : ℚ
  REST_AFTER_CYCLE : ℚ
  START_DUTY_HOUR : ℚ
deriving DecidableEq

/-- The only instance attribute of class `StepsGenerator`. -/
structure StepsGenerator where
  cycle_remaining : ℚ
deriving DecidableEq

/-- `StepsGenerator.__init__`: `cycle_remaining = MAX_CYCLE_HOURS - cycle_used_hrs`. -/
def stepsGenerator_init (cfg : Config) (cycle_used_hrs : ℚ) : StepsGenerator :=
  ⟨cfg.MAX_CYCLE_HOURS - cycle_used_hrs⟩

/-- `StepsGenerator._create_segment`. -/
def create_segment (status : Status) (duration : ℚ) (label : Label)
    (start_hour elapsed_start miles_moved : ℚ) : Segment :=
  { status := status
    duration := duration
    label := label
    start_hour := start_hour
    end_hour := pymod (start_hour + duration) 24
    elapsed_start := elapsed_start
    elapsed_end := elapsed_start + duration
    day_number := ⌊elapsed_start / 24⌋ + 1
    miles_moved := miles_moved }

/-- `StepsGenerator.manage_create_segment`.  The first component is the list of
segments the Python method appends to its `steps` argument (empty, or the
pre-midnight part); the second component is the returned segment. -/
def manage_create_segment (status : Status) (duration : ℚ) (label : Label)
    (start_hour elapsed_start miles_moved : ℚ) : List Segment × Segment :=
  let rest_of_days := pymod elapsed_start 24
  if 24 < rest_of_days + duration then
    let first_part_duration := 24 - rest_of_days
    let first_part_miles :=
      if miles_moved ≠ 0 then miles_moved * first_part_duration / duration else 0
    let segment1 := create_segment status first_part_duration label start_hour
      elapsed_start first_part_miles
    let new_elapsed_start := elapsed_start + first_part_duration
    let second_part_duration := duration - first_part_duration
    let segment2 := create_segment status second_part_duration label 0
      new_elapsed_start (miles_moved - first_part_miles)
    ([segment1], segment2)
  else
    ([], create_segment status duration label start_hour elapsed_start miles_moved)

/-- The mutable local variables of `StepsGenerator.generate_steps`, plus the
instance attribute `cycle_remaining`, at a point inside the method body. -/
structure LoopState where
  steps : List Segment
  current_hour : ℚ
  total_elapsed : ℚ
  current_drive_window : ℚ
  current_drive_accumulated : ℚ
  drive_accumulated_since_last_break : ℚ
  miles_since_fuel : ℚ
  cycle_remaining : ℚ
  dist_to_pickup_miles : ℚ
  remaining_dist : ℚ
  pickup_done : Bool
deriving DecidableEq

attribute [ext] LoopState

/-- The emission pattern used at every call site of `manage_create_segment`:
`seg = self.manage_create_segment(status, duration, label, sh, total_elapsed, steps, miles)`
followed by `steps.append(seg)`, `current_hour = seg["end_hour"]` and
`total_elapsed += duration` (each site performs exactly these updates to
`steps`, `current_hour` and `total_elapsed`; other counters are updated by the
site itself). -/
def emit (status : Status) (duration : ℚ) (label : Label) (start_hour miles : ℚ)
    (s : LoopState) : LoopState :=
  let pr := manage_create_segment status duration label start_hour s.total_elapsed miles
  { s with
    steps := s.steps ++ pr.1 ++ [pr.2]
    current_hour := pr.2.end_hour
    total_elapsed := s.total_elapsed + duration }

/-- Lines 179–186: the 8-day-cycle restart check at the top of each loop
iteration. -/
def restart_phase (cfg : Config) (s : LoopState) : LoopState :=
  if s.cycle_remaining ≤ 0 then
    let s := emit Status.OFF_DUTY cfg.REST_AFTER_CYCLE Label.cycleRestart
      s.current_hour 0 s
    { s with
      cycle_remaining := cfg.MAX_CYCLE_HOURS
      current_drive_window := 0
      current_drive_accumulated := 0
      drive_accumulated_since_last_break := 0 }
  else s

/-- Line 189: `dist_to_next_stop`. -/
def dist_to_next_stop (s : LoopState) : ℚ :=
  if s.pickup_done then s.remaining_dist else s.dist_to_pickup_miles

/-- Line 194: `left_time_before_break`
(`BREAK_AFTER - ((x % BREAK_AFTER) if x else 0)`). -/
def leftBreakBudget (cfg : Config) (s : LoopState) : ℚ :=
  cfg.BREAK_AFTER -
    (if s.drive_accumulated_since_last_break ≠ 0 then
      pymod s.drive_accumulated_since_last_break cfg.BREAK_AFTER
    else 0)

/-- Lines 192–204: the five-way minimum `time_to_drive`. -/
def compute_time_to_drive (cfg : Config) (s : LoopState) : ℚ :=
  let left_time_driving_per_day := cfg.MAX_DRIVING_PER_DAY - s.current_drive_accumulated
  let left_time_drive_window := cfg.MAX_DRIVE_WINDOW - s.current_drive_window
  let left_time_before_break := leftBreakBudget cfg s
  let left_time_to_next_stop := dist_to_next_stop s / cfg.AVG_SPEED_MPH
  min (min (min (min left_time_driving_per_day left_time_drive_window)
    left_time_before_break) left_time_to_next_stop) s.cycle_remaining

/-- Lines 206–224: the driving segment, when `time_to_drive > 0`. -/
def drive_phase (cfg : Config) (s : LoopState) : LoopState :=
  let time_to_drive := compute_time_to_drive cfg s
  if 0 < time_to_drive then
    let miles_moved := time_to_drive * cfg.AVG_SPEED_MPH
    let s' := emit Status.DRIVING time_to_drive Label.driving s.current_hour miles_moved s
    { s' with
      dist_to_pickup_miles :=
        if ¬ s.pickup_done then s.dist_to_pickup_miles - miles_moved
        else s.dist_to_pickup_miles
      remaining_dist := s.remaining_dist - miles_moved
      miles_since_fuel := s.miles_since_fuel + miles_moved
      current_drive_window := s.current_drive_window + time_to_drive
      current_drive_accumulated := s.current_drive_accumulated + time_to_drive
      drive_accumulated_since_last_break :=
        s.drive_accumulated_since_last_break + time_to_drive
      cycle_remaining := s.cycle_remaining - time_to_drive }
  else s

/-- Lines 226–234: arrival at the pickup location. -/
def pickup_phase (cfg : Config) (s : LoopState) : LoopState :=
  if ¬ s.pickup_done ∧ s.dist_to_pickup_miles ≤ 0 then
    let s' := emit Status.ON_DUTY cfg.PICKUP_TIME Label.pickupLoading s.current_hour 0 s
    { s' with
      current_drive_window := s.current_drive_window + cfg.PICKUP_TIME
      cycle_remaining := s.cycle_remaining - cfg.PICKUP_TIME
      pickup_done := true }
  else s

/-- Lines 236–261: the `if`/`elif` chain for fueling, break and sleeper stops. -/
def stop_phase (cfg : Config) (s : LoopState) : LoopState :=
  if cfg.MILES_BEFORE_FUEL ≤ s.miles_since_fuel then
    let s' := emit Status.ON_DUTY cfg.FUELING_DURATION Label.fueling s.current_hour 0 s
    { s' with
      current_drive_window := s.current_drive_window + cfg.FUELING_DURATION
      cycle_remaining := s.cycle_remaining - cfg.FUELING_DURATION
      miles_since_fuel := 0 }
  else if cfg.BREAK_AFTER ≤ s.drive_accumulated_since_last_break then
    let s' := emit Status.OFF_DUTY cfg.BREAK_DURATION Label.breakRest s.current_hour 0 s
    { s' with
      current_drive_window := s.current_drive_window + cfg.BREAK_DURATION
      drive_accumulated_since_last_break := 0 }
  else if cfg.MAX_DRIVING_PER_DAY ≤ s.current_drive_accumulated ∨
      cfg.MAX_DRIVE_WINDOW ≤ s.current_drive_window then
    let s' := emit Status.SLEEPER cfg.SLEEPER_BREAK_HOURS Label.sleep s.current_hour 0 s
    { s' with
      current_drive_window := 0
      current_drive_accumulated := 0
      drive_accumulated_since_last_break := 0 }
  else s

/-- One full iteration of the `while remaining_dist > 0` loop body
(lines 177–261), in source order. -/
def loop_body (cfg : Config) (s : LoopState) : LoopState :=
  stop_phase cfg (pickup_phase cfg (drive_phase cfg (restart_phase cfg s)))

/-- The `while` loop with explicit fuel: `none` when fuel runs out with the
guard still true, otherwise the state at loop exit. -/
def loopGo (cfg : Config) : ℕ → LoopState → Option LoopState
  | 0, s => if 0 < s.remaining_dist then none else some s
  | n + 1, s => if 0 < s.remaining_dist then loopGo cfg n (loop_body cfg s) else some s

/-- The meters-to-miles factor `0.000621371` from lines 147–148. -/
def METERS_TO_MILES : ℚ := 621371 / 1000000000

/-- Lines 150–157 and 173–175: the initial values of the local variables
(distances converted to miles on lines 147–148). -/
def base_state (cfg : Config) (g : StepsGenerator)
    (dist_to_pickup_meters dist_to_dropoff_meters : ℚ) : LoopState :=
  let dist_to_pickup_miles := dist_to_pickup_meters * METERS_TO_MILES
  let dist_to_dropoff_miles := dist_to_dropoff_meters * METERS_TO_MILES
  { steps := []
    current_hour := cfg.START_DUTY_HOUR
    total_elapsed := 0
    current_drive_window := 0
    current_drive_accumulated := 0
    drive_accumulated_since_last_break := 0
    miles_since_fuel := 0
    cycle_remaining := g.cycle_remaining
    dist_to_pickup_miles := dist_to_pickup_miles
    remaining_dist := dist_to_pickup_miles + dist_to_dropoff_miles
    pickup_done := false }

/-- Lines 158–163: the leading OFF_DUTY filler when starting partway through
the day. -/
def start_filler_step (s : LoopState) : LoopState :=
  if 0 < s.current_hour then
    emit Status.OFF_DUTY s.current_hour Label.offDuty 0 0 s
  else s

/-- Lines 165–171: the pre-trip inspection segment and its counter updates. -/
def pretrip_step (cfg : Config) (s : LoopState) : LoopState :=
  let s := emit Status.ON_DUTY cfg.PRE_TRIP_INSPECTION_TIME Label.preTrip
    s.current_hour 0 s
  { s with
    current_drive_window := s.current_drive_window + cfg.PRE_TRIP_INSPECTION_TIME
    cycle_remaining := s.cycle_remaining - cfg.PRE_TRIP_INSPECTION_TIME }

/-- Lines 146–175: everything `generate_steps` does before the main loop. -/
def init_state (cfg : Config) (g : StepsGenerator)
    (dist_to_pickup_meters dist_to_dropoff_meters : ℚ) : LoopState :=
  pretrip_step cfg (start_filler_step (base_state cfg g dist_to_pickup_meters
    dist_to_dropoff_meters))

/-- Lines 262–274: the drop-off segment and the final same-day OFF_DUTY filler. -/
def final_phase (cfg : Config) (s : LoopState) : LoopState :=
  let s := emit Status.ON_DUTY cfg.DROPOFF_TIME Label.dropOff s.current_hour 0 s
  let left_time := 24 - pymod s.current_hour 24
  if 0 < left_time then
    let seg := create_segment Status.OFF_DUTY left_time Label.offDuty
      s.current_hour s.total_elapsed 0
    { s with
      steps := s.steps ++ [seg]
      current_hour := seg.end_hour
      total_elapsed := s.total_elapsed + left_time }
  else s

/-- `StepsGenerator.generate_steps`, with explicit loop fuel.  Returns the list
of segments together with the generator as the call leaves it (the method
mutates `self.cycle_remaining`). -/
def generate_steps (cfg : Config) (g : StepsGenerator)
    (dist_to_pickup_meters dist_to_dropoff_meters : ℚ) (fuel : ℕ) :
    Option (List Segment × StepsGenerator) :=
  match loopGo cfg fuel (init_state cfg g dist_to_pickup_meters dist_to_dropoff_meters) with
  | none => none
  | some s =>
    let s := final_phase cfg s
    some (s.steps, ⟨s.cycle_remaining⟩)

/-! ### Properties of `pymod` -/

theorem pymod_nonneg {m : ℚ} (hm : 0 < m) (x : ℚ) : 0 ≤ pymod x m := by
  have h1 : (⌊x / m⌋ : ℚ) ≤ x / m := Int.floor_le _
  have h2 : m * (⌊x / m⌋ : ℚ) ≤ m * (x / m) := by
    exact mul_le_mul_of_nonneg_left h1 hm.le
  have h3 : m * (x / m) = x := by
    rw [mul_comm]
    exact div_mul_cancel₀ x hm.ne'
  unfold pymod
  linarith

theorem pymod_lt {m : ℚ} (hm : 0 < m) (x : ℚ) : pymod x m < m := by
  have h1 : x / m < (⌊x / m⌋ : ℚ) + 1 := Int.lt_floor_add_one _
  have h2 : m * (x / m) < m * ((⌊x / m⌋ : ℚ) + 1) := by
    exact mul_lt_mul_of_pos_left h1 hm
  have h3 : m * (x / m) = x := by
    rw [mul_comm]
    exact div_mul_cancel₀ x hm.ne'
  unfold pymod
  nlinarith

theorem pymod_eq_self {x m : ℚ} (h0 : 0 ≤ x) (hx : x < m) : pymod x m = x := by
  have hm : 0 < m := lt_of_le_of_lt h0 hx
  have hfl : ⌊x / m⌋ = 0 := by
    rw [Int.floor_eq_zero_iff]
    constructor
    · exact div_nonneg h0 hm.le
    · rw [div_lt_one hm]
      exact hx
  unfold pymod
  rw [hfl]
  push_cast
  ring

theorem pymod_add_int_mul {m : ℚ} (hm : m ≠ 0) (x : ℚ) (k : ℤ) :
    pymod (x + m * (k : ℚ)) m = pymod x m := by
  have hdiv : (x + m * (k : ℚ)) / m = x / m + (k : ℚ) := by
    field_simp
    ring
  unfold pymod
  rw [hdiv, Int.floor_add_int]
  push_cast
  ring

theorem pymod_pymod_add {m : ℚ} (hm : m ≠ 0) (x y : ℚ) :
    pymod (pymod x m + y) m = pymod (x + y) m := by
  have h : pymod x m + y = (x + y) + m * ((-⌊x / m⌋ : ℤ) : ℚ) := by
    unfold pymod
    push_cast
    ring
  rw [h, pymod_add_int_mul hm]

theorem add_sub_pymod (x m : ℚ) : x + (m - pymod x m) = m * ((⌊x / m⌋ : ℚ) + 1) := by
  unfold pymod
  ring

/-! ### List helpers: contiguity, end time, driving sums -/

/-- The segments of `l` are contiguous in elapsed time starting at `t`. -/
def contigFrom : ℚ → List Segment → Prop
  | _, [] => True
  | t, seg :: rest => seg.elapsed_start = t ∧ contigFrom seg.elapsed_end rest

/-- Elapsed time at the end of `l` when `l` starts at `t`. -/
def endFrom : ℚ → List Segment → ℚ
  | t, [] => t
  | _, seg :: rest => endFrom seg.elapsed_end rest

/-- Sum of `miles_moved` over DRIVING segments. -/
def drivingMilesSum (l : List Segment) : ℚ :=
  (l.map (fun seg => if seg.status = Status.DRIVING then seg.miles_moved else 0)).sum

/-- Sum of `duration` over DRIVING segments. -/
def drivingDurSum (l : List Segment) : ℚ :=
  (l.map (fun seg => if seg.status = Status.DRIVING then seg.duration else 0)).sum

/-- A segment that resets the daily-driving counter when it is emitted:
a sleeper berth rest or an 8-day-cycle restart. -/
def isReset (seg : Segment) : Prop :=
  seg.status = Status.SLEEPER ∨ seg.label = Label.cycleRestart

instance (seg : Segment) : Decidable (isReset seg) := by
  unfold isReset
  infer_instance

theorem contigFrom_append {l₁ l₂ : List Segment} {t : ℚ} :
    contigFrom t (l₁ ++ l₂) ↔ contigFrom t l₁ ∧ contigFrom (endFrom t l₁) l₂ := by
  induction l₁ generalizing t with
  | nil => simp [contigFrom, endFrom]
  | cons seg rest ih =>
    simp only [List.cons_append, contigFrom, endFrom, List.append_eq, ih]
    tauto

theorem endFrom_append (l₁ l₂ : List Segment) (t : ℚ) :
    endFrom t (l₁ ++ l₂) = endFrom (endFrom t l₁) l₂ := by
  induction l₁ generalizing t with
  | nil => simp [endFrom]
  | cons seg rest ih => simp [endFrom, ih]

theorem drivingMilesSum_append (l₁ l₂ : List Segment) :
    drivingMilesSum (l₁ ++ l₂) = drivingMilesSum l₁ + drivingMilesSum l₂ := by
  simp [drivingMilesSum]

theorem drivingDurSum_append (l₁ l₂ : List Segment) :
    drivingDurSum (l₁ ++ l₂) = drivingDurSum l₁ + drivingDurSum l₂ := by
  simp [drivingDurSum]

theorem drivingDurSum_nonneg {l : List Segment} (h : ∀ seg ∈ l, 0 ≤ seg.duration) :
    0 ≤ drivingDurSum l := by
  induction l with
  | nil => simp [drivingDurSum]
  | cons seg rest ih =>
    have h1 : 0 ≤ seg.duration := h seg (by simp)
    have h2 : 0 ≤ drivingDurSum rest := ih fun x hx => h x (by simp [hx])
    simp only [drivingDurSum, List.map_cons, List.sum_cons]
    have : (0 : ℚ) ≤ if seg.status = Status.DRIVING then seg.duration else 0 := by
      split <;> simp [h1]
    exact add_nonneg this h2

/-! ### Facts about `manage_create_segment` -/

theorem manage_split_iff (status : Status) (dur : ℚ) (lbl : Label) (sh es miles : ℚ) :
    manage_create_segment status dur lbl sh es miles =
      (if 24 < pymod es 24 + dur then
        ([create_segment status (24 - pymod es 24) lbl sh es
            (if miles ≠ 0 then miles * (24 - pymod es 24) / dur else 0)],
         create_segment status (dur - (24 - pymod es 24)) lbl 0 (es + (24 - pymod es 24))
            (miles - (if miles ≠ 0 then miles * (24 - pymod es 24) / dur else 0)))
      else
        ([], create_segment status dur lbl sh es miles)) := by
  rfl

theorem manage_contig (status : Status) (dur : ℚ) (lbl : Label) (sh es miles : ℚ) :
    contigFrom es ((manage_create_segment status dur lbl sh es miles).1 ++
      [(manage_create_segment status dur lbl sh es miles).2]) := by
  rw [manage_split_iff]
  split
  · simp [contigFrom, create_segment]
  · simp [contigFrom, create_segment]

theorem manage_endFrom (status : Status) (dur : ℚ) (lbl : Label) (sh es miles : ℚ) :
    endFrom es ((manage_create_segment status dur lbl sh es miles).1 ++
      [(manage_create_segment status dur lbl sh es miles).2]) = es + dur := by
  rw [manage_split_iff]
  split
  · simp only [List.cons_append, List.nil_append, endFrom, create_segment]
    ring
  · simp [endFrom, create_segment]

theorem manage_end_hour {es sh : ℚ} (status : Status) (dur : ℚ) (lbl : Label) (miles : ℚ)
    (hsh : sh = pymod es 24) :
    (manage_create_segment status dur lbl sh es miles).2.end_hour = pymod (es + dur) 24 := by
  have h24 : (24 : ℚ) ≠ 0 := by norm_num
  rw [manage_split_iff]
  split
  · simp only [create_segment]
    have h1 : es + (24 - pymod es 24) = 24 * ((⌊es / 24⌋ : ℚ) + 1) := add_sub_pymod es 24
    have h2 : (0 : ℚ) + (dur - (24 - pymod es 24)) =
        (es + dur) + 24 * ((-(⌊es / 24⌋ + 1) : ℤ) : ℚ) := by
      unfold pymod
      push_cast
      ring
    rw [h2, pymod_add_int_mul h24]
  · simp only [create_segment]
    rw [hsh, pymod_pymod_add h24]

theorem manage_mem {status : Status} {dur : ℚ} {lbl : Label} {sh es miles : ℚ} {seg : Segment}
    (h : seg ∈ (manage_create_segment status dur lbl sh es miles).1 ++
      [(manage_create_segment status dur lbl sh es miles).2]) :
    seg.status = status ∧ seg.label = lbl := by
  rw [manage_split_iff] at h
  revert h
  split <;> intro h <;> simp at h
  · rcases h with h | h <;> subst h <;> simp [create_segment]
  · subst h
    simp [create_segment]

theorem manage_dur_pos {status : Status} {dur : ℚ} {lbl : Label} {sh es miles : ℚ}
    (hdur : 0 < dur) {seg : Segment}
    (h : seg ∈ (manage_create_segment status dur lbl sh es miles).1 ++
      [(manage_create_segment status dur lbl sh es miles).2]) :
    0 < seg.duration := by
  have hlt := pymod_lt (by norm_num : (0:ℚ) < 24) es
  rw [manage_split_iff] at h
  revert h
  split <;> intro h <;> simp at h
  · rcases h with h | h <;> subst h <;> simp only [create_segment] <;> linarith
  · subst h
    simpa [create_segment] using hdur

theorem manage_ee {status : Status} {dur : ℚ} {lbl : Label} {sh es miles : ℚ}
    {seg : Segment}
    (h : seg ∈ (manage_create_segment status dur lbl sh es miles).1 ++
      [(manage_create_segment status dur lbl sh es miles).2]) :
    seg.elapsed_end = seg.elapsed_start + seg.duration := by
  rw [manage_split_iff] at h
  revert h
  split <;> intro h <;> simp at h
  · rcases h with h | h <;> subst h <;> simp [create_segment]
  · subst h
    simp [create_segment]

theorem manage_milesSum (status : Status) (dur : ℚ) (lbl : Label) (sh es miles : ℚ) :
    (((manage_create_segment status dur lbl sh es miles).1 ++
      [(manage_create_segment status dur lbl sh es miles).2]).map
        (fun seg => seg.miles_moved)).sum = miles := by
  rw [manage_split_iff]
  split
  · simp only [List.cons_append, List.nil_append, List.map_cons, List.map_nil,
      List.sum_cons, List.sum_nil, create_segment]
    ring
  · simp [create_segment]

theorem manage_drivingMilesSum (status : Status) (dur : ℚ) (lbl : Label) (sh es miles : ℚ) :
    drivingMilesSum ((manage_create_segment status dur lbl sh es miles).1 ++
      [(manage_create_segment status dur lbl sh es miles).2]) =
      if status = Status.DRIVING then miles else 0 := by
  rw [manage_split_iff]
  split
  · simp only [drivingMilesSum, List.cons_append, List.nil_append, List.map_cons,
      List.map_nil, List.sum_cons, List.sum_nil, create_segment]
    split <;> ring
  · simp only [drivingMilesSum, List.nil_append, List.map_cons, List.map_nil,
      List.sum_cons, List.sum_nil, create_segment]
    split <;> ring

theorem manage_drivingDurSum (status : Status) (dur : ℚ) (lbl : Label) (sh es miles : ℚ) :
    drivingDurSum ((manage_create_segment status dur lbl sh es miles).1 ++
      [(manage_create_segment status dur lbl sh es miles).2]) =
      if status = Status.DRIVING then dur else 0 := by
  rw [manage_split_iff]
  split
  · simp only [drivingDurSum, List.cons_append, List.nil_append, List.map_cons,
      List.map_nil, List.sum_cons, List.sum_nil, create_segment]
    split <;> ring
  · simp only [drivingDurSum, List.nil_append, List.map_cons, List.map_nil,
      List.sum_cons, List.sum_nil, create_segment]
    split <;> ring

/-! ### Validated configurations (spec §5/§6: all constants positive,
`start_duty_hour` an hour of day) -/

structure CfgOK (cfg : Config) : Prop where
  maxCycle_pos : 0 < cfg.MAX_CYCLE_HOURS
  maxDaily_pos : 0 < cfg.MAX_DRIVING_PER_DAY
  maxWindow_pos : 0 < cfg.MAX_DRIVE_WINDOW
  breakAfter_pos : 0 < cfg.BREAK_AFTER
  breakDur_pos : 0 < cfg.BREAK_DURATION
  speed_pos : 0 < cfg.AVG_SPEED_MPH
  pickup_pos : 0 < cfg.PICKUP_TIME
  dropoff_pos : 0 < cfg.DROPOFF_TIME
  pretrip_pos : 0 < cfg.PRE_TRIP_INSPECTION_TIME
  fuelMiles_pos : 0 < cfg.MILES_BEFORE_FUEL
  fuelDur_pos : 0 < cfg.FUELING_DURATION
  sleeper_pos : 0 < cfg.SLEEPER_BREAK_HOURS
  restCycle_pos : 0 < cfg.REST_AFTER_CYCLE
  start_nonneg : 0 ≤ cfg.START_DUTY_HOUR
  start_lt : cfg.START_DUTY_HOUR < 24

/-! ### Bounds on the five-way minimum -/

theorem ttd_le_daily (cfg : Config) (s : LoopState) :
    compute_time_to_drive cfg s ≤ cfg.MAX_DRIVING_PER_DAY - s.current_drive_accumulated := by
  unfold compute_time_to_drive
  exact le_trans (min_le_left _ _) (le_trans (min_le_left _ _)
    (le_trans (min_le_left _ _) (min_le_left _ _)))

theorem ttd_le_window (cfg : Config) (s : LoopState) :
    compute_time_to_drive cfg s ≤ cfg.MAX_DRIVE_WINDOW - s.current_drive_window := by
  unfold compute_time_to_drive
  exact le_trans (min_le_left _ _) (le_trans (min_le_left _ _)
    (le_trans (min_le_left _ _) (min_le_right _ _)))

theorem ttd_le_breakBudget (cfg : Config) (s : LoopState) :
    compute_time_to_drive cfg s ≤ leftBreakBudget cfg s := by
  unfold compute_time_to_drive
  exact le_trans (min_le_left _ _) (le_trans (min_le_left _ _) (min_le_right _ _))

theorem ttd_le_dist (cfg : Config) (s : LoopState) :
    compute_time_to_drive cfg s ≤ dist_to_next_stop s / cfg.AVG_SPEED_MPH := by
  unfold compute_time_to_drive
  exact le_trans (min_le_left _ _) (min_le_right _ _)

theorem ttd_le_cyc (cfg : Config) (s : LoopState) :
    compute_time_to_drive cfg s ≤ s.cycle_remaining := min_le_right _ _

/-- The minimum is attained at one of its five arguments. -/
theorem ttd_cases (cfg : Config) (s : LoopState) :
    compute_time_to_drive cfg s = cfg.MAX_DRIVING_PER_DAY - s.current_drive_accumulated ∨
    compute_time_to_drive cfg s = cfg.MAX_DRIVE_WINDOW - s.current_drive_window ∨
    compute_time_to_drive cfg s = leftBreakBudget cfg s ∨
    compute_time_to_drive cfg s = dist_to_next_stop s / cfg.AVG_SPEED_MPH ∨
    compute_time_to_drive cfg s = s.cycle_remaining := by
  unfold compute_time_to_drive
  rcases min_cases (min (min (min (cfg.MAX_DRIVING_PER_DAY - s.current_drive_accumulated)
      (cfg.MAX_DRIVE_WINDOW - s.current_drive_window)) (leftBreakBudget cfg s))
      (dist_to_next_stop s / cfg.AVG_SPEED_MPH)) s.cycle_remaining with h | h
  · rcases min_cases (min (min (cfg.MAX_DRIVING_PER_DAY - s.current_drive_accumulated)
        (cfg.MAX_DRIVE_WINDOW - s.current_drive_window)) (leftBreakBudget cfg s))
        (dist_to_next_stop s / cfg.AVG_SPEED_MPH) with h2 | h2
    · rcases min_cases (min (cfg.MAX_DRIVING_PER_DAY - s.current_drive_accumulated)
          (cfg.MAX_DRIVE_WINDOW - s.current_drive_window)) (leftBreakBudget cfg s) with h3 | h3
      · rcases min_cases (cfg.MAX_DRIVING_PER_DAY - s.current_drive_accumulated)
            (cfg.MAX_DRIVE_WINDOW - s.current_drive_window) with h4 | h4
        · exact Or.inl (by rw [h.1, h2.1, h3.1, h4.1])
        · exact Or.inr (Or.inl (by rw [h.1, h2.1, h3.1, h4.1]))
      · exact Or.inr (Or.inr (Or.inl (by rw [h.1, h2.1, h3.1])))
    · exact Or.inr (Or.inr (Or.inr (Or.inl (by rw [h.1, h2.1]))))
  · exact Or.inr (Or.inr (Or.inr (Or.inr h.1)))

/-! ### The steps-shape invariant -/

/-- Shape of the output list relative to the clock variables: contiguous from
elapsed hour 0, ending at `total_elapsed`, with `current_hour` the hour of day
of `total_elapsed`, and positive durations. -/
structure StepsInv (s : LoopState) : Prop where
  te_nonneg : 0 ≤ s.total_elapsed
  ch_eq : s.current_hour = pymod s.total_elapsed 24
  contig : contigFrom 0 s.steps
  endeq : endFrom 0 s.steps = s.total_elapsed
  dur_pos : ∀ seg ∈ s.steps, 0 < seg.duration
  ee_eq : ∀ seg ∈ s.steps, seg.elapsed_end = seg.elapsed_start + seg.duration

theorem emit_steps_eq (status : Status) (dur : ℚ) (lbl : Label) (sh miles : ℚ)
    (s : LoopState) :
    (emit status dur lbl sh miles s).steps =
      s.steps ++ ((manage_create_segment status dur lbl sh s.total_elapsed miles).1 ++
        [(manage_create_segment status dur lbl sh s.total_elapsed miles).2]) := by
  simp [emit]

theorem emit_current_hour_eq (status : Status) (dur : ℚ) (lbl : Label) (sh miles : ℚ)
    (s : LoopState) :
    (emit status dur lbl sh miles s).current_hour =
      (manage_create_segment status dur lbl sh s.total_elapsed miles).2.end_hour := rfl

theorem emit_total_elapsed_eq (status : Status) (dur : ℚ) (lbl : Label) (sh miles : ℚ)
    (s : LoopState) :
    (emit status dur lbl sh miles s).total_elapsed = s.total_elapsed + dur := rfl

theorem stepsInv_emit {s : LoopState} (hte : 0 ≤ s.total_elapsed)
    (hcontig : contigFrom 0 s.steps) (hendeq : endFrom 0 s.steps = s.total_elapsed)
    (hdurs : ∀ seg ∈ s.steps, 0 < seg.duration)
    (hees : ∀ seg ∈ s.steps, seg.elapsed_end = seg.elapsed_start + seg.duration)
    (status : Status) {dur : ℚ}
    (hdur : 0 < dur) (lbl : Label) {sh : ℚ} (miles : ℚ)
    (hsh : sh = pymod s.total_elapsed 24) :
    StepsInv (emit status dur lbl sh miles s) := by
  constructor
  · rw [emit_total_elapsed_eq]
    linarith
  · rw [emit_current_hour_eq, emit_total_elapsed_eq]
    exact manage_end_hour status dur lbl miles hsh
  · rw [emit_steps_eq, contigFrom_append]
    refine ⟨hcontig, ?_⟩
    rw [hendeq]
    exact manage_contig status dur lbl sh s.total_elapsed miles
  · rw [emit_steps_eq, emit_total_elapsed_eq, endFrom_append, hendeq]
    exact manage_endFrom status dur lbl sh s.total_elapsed miles
  · intro seg hseg
    rw [emit_steps_eq] at hseg
    rcases List.mem_append.1 hseg with h1 | h1
    · exact hdurs seg h1
    · exact manage_dur_pos hdur h1
  · intro seg hseg
    rw [emit_steps_eq] at hseg
    rcases List.mem_append.1 hseg with h1 | h1
    · exact hees seg h1
    · exact manage_ee h1

/-! ### The daily-driving invariant (driving between reset segments) -/

/-- Driving-duration bound over reset-free contiguous sublists:
`global` bounds every reset-free contiguous sublist of the output by the daily
cap, `suffix` bounds the reset-free suffixes by the current value of
`current_drive_accumulated`. -/
structure DailyInv (cfg : Config) (s : LoopState) : Prop where
  global : ∀ pre mid post, s.steps = pre ++ mid ++ post →
    (∀ x ∈ mid, ¬ isReset x) → drivingDurSum mid ≤ cfg.MAX_DRIVING_PER_DAY
  suffix : ∀ pre mid, s.steps = pre ++ mid →
    (∀ x ∈ mid, ¬ isReset x) → drivingDurSum mid ≤ s.current_drive_accumulated

theorem drivingDurSum_le_of_append_left {u v : List Segment}
    (hnn : ∀ seg ∈ u ++ v, 0 ≤ seg.duration) :
    drivingDurSum u ≤ drivingDurSum (u ++ v) := by
  rw [drivingDurSum_append]
  have : 0 ≤ drivingDurSum v :=
    drivingDurSum_nonneg fun seg hs => hnn seg (List.mem_append_right _ hs)
  linarith

theorem drivingDurSum_le_of_append_right {u v : List Segment}
    (hnn : ∀ seg ∈ u ++ v, 0 ≤ seg.duration) :
    drivingDurSum v ≤ drivingDurSum (u ++ v) := by
  rw [drivingDurSum_append]
  have : 0 ≤ drivingDurSum u :=
    drivingDurSum_nonneg fun seg hs => hnn seg (List.mem_append_left _ hs)
  linarith

/-- Extending the output by non-reset segments of total driving duration `t`. -/
theorem daily_extend_add {steps new : List Segment} {MAXD a t : ℚ}
    (hG : ∀ pre mid post, steps = pre ++ mid ++ post →
      (∀ x ∈ mid, ¬ isReset x) → drivingDurSum mid ≤ MAXD)
    (hS : ∀ pre mid, steps = pre ++ mid →
      (∀ x ∈ mid, ¬ isReset x) → drivingDurSum mid ≤ a)
    (hsum : drivingDurSum new = t)
    (hnn : ∀ seg ∈ new, 0 ≤ seg.duration)
    (ha : 0 ≤ a) (hat : a + t ≤ MAXD) :
    (∀ pre mid post, steps ++ new = pre ++ mid ++ post →
      (∀ x ∈ mid, ¬ isReset x) → drivingDurSum mid ≤ MAXD) ∧
    (∀ pre mid, steps ++ new = pre ++ mid →
      (∀ x ∈ mid, ¬ isReset x) → drivingDurSum mid ≤ a + t) := by
  have hsuffix : ∀ pre mid, steps ++ new = pre ++ mid →
      (∀ x ∈ mid, ¬ isReset x) → drivingDurSum mid ≤ a + t := by
    intro pre mid heq hfree
    rcases List.append_eq_append_iff.1 heq with ⟨u, hpre, hnew⟩ | ⟨u, hsteps, hmid⟩
    · -- mid is a suffix of new
      have : drivingDurSum mid ≤ t := by
        rw [← hsum, hnew]
        exact drivingDurSum_le_of_append_right (by rw [← hnew]; exact hnn)
      linarith
    · -- mid = u ++ new with u a suffix of steps
      have hu : drivingDurSum u ≤ a := by
        refine hS pre u hsteps fun x hx => hfree x ?_
        rw [hmid]
        exact List.mem_append_left _ hx
      rw [hmid, drivingDurSum_append, hsum]
      linarith
  refine ⟨?_, hsuffix⟩
  intro pre mid post heq hfree
  rcases List.append_eq_append_iff.1 heq with ⟨u, hpm, hnew⟩ | ⟨u, hsteps, hpost⟩
  · -- pre ++ mid = steps ++ u and new = u ++ post
    rcases List.append_eq_append_iff.1 hpm with ⟨v, hsteps2, hmid⟩ | ⟨v, hpre, hu⟩
    · -- mid = v ++ u with v a suffix of steps and u a prefix of new
      have hv_le : drivingDurSum v ≤ a := by
        refine hS pre v hsteps2 fun x hx => hfree x ?_
        rw [hmid]
        exact List.mem_append_left _ hx
      have hu_le : drivingDurSum u ≤ t := by
        rw [← hsum, hnew]
        exact drivingDurSum_le_of_append_left (by rw [← hnew]; exact hnn)
      rw [hmid, drivingDurSum_append]
      linarith
    · -- mid entirely inside new : u = v ++ mid, new = (v ++ mid) ++ post
      have hmid_le : drivingDurSum mid ≤ t := by
        rw [← hsum, hnew, hu]
        have hnn₁ : ∀ seg ∈ v ++ mid, 0 ≤ seg.duration := fun seg hs =>
          hnn seg (by rw [hnew, hu]; exact List.mem_append_left _ hs)
        exact le_trans (drivingDurSum_le_of_append_right hnn₁)
          (drivingDurSum_le_of_append_left (by rw [hu] at hnew; rw [← hnew]; exact hnn))
      linarith
  · -- mid entirely inside steps : steps = (pre ++ mid) ++ u
    exact hG pre mid u hsteps hfree

/-- Extending the output by reset segments (sleeper berth / cycle restart). -/
theorem daily_extend_reset {steps new : List Segment} {MAXD a : ℚ}
    (hG : ∀ pre mid post, steps = pre ++ mid ++ post →
      (∀ x ∈ mid, ¬ isReset x) → drivingDurSum mid ≤ MAXD)
    (hS : ∀ pre mid, steps = pre ++ mid →
      (∀ x ∈ mid, ¬ isReset x) → drivingDurSum mid ≤ a)
    (hreset : ∀ seg ∈ new, isReset seg)
    (hne : new ≠ [])
    (ha : 0 ≤ a) (haM : a ≤ MAXD) :
    (∀ pre mid post, steps ++ new = pre ++ mid ++ post →
      (∀ x ∈ mid, ¬ isReset x) → drivingDurSum mid ≤ MAXD) ∧
    (∀ pre mid, steps ++ new = pre ++ mid →
      (∀ x ∈ mid, ¬ isReset x) → drivingDurSum mid ≤ 0) := by
  constructor
  · intro pre mid post heq hfree
    rcases List.append_eq_append_iff.1 heq with ⟨u, hpm, hnew⟩ | ⟨u, hsteps, hpost⟩
    · rcases List.append_eq_append_iff.1 hpm with ⟨v, hsteps2, hmid⟩ | ⟨v, hpre, hu⟩
      · -- mid = v ++ u, u a prefix of new: u = []
        cases u with
        | nil =>
          rw [List.append_nil] at hmid
          subst hmid
          exact le_trans (hS pre mid hsteps2 hfree) haM
        | cons seg rest =>
          exfalso
          refine hfree seg (by rw [hmid]; simp) (hreset seg ?_)
          rw [hnew]
          simp
      · -- mid inside new: every element of mid is a reset, so mid = []
        cases mid with
        | nil =>
          simp only [drivingDurSum, List.map_nil, List.sum_nil]
          linarith
        | cons seg rest =>
          exfalso
          refine hfree seg (by simp) (hreset seg ?_)
          rw [hnew, hu]
          simp
    · -- mid entirely inside steps
      exact hG pre mid u hsteps hfree
  · intro pre mid heq hfree
    rcases List.append_eq_append_iff.1 heq with ⟨u, hpre, hnew⟩ | ⟨u, hsteps, hmid⟩
    · -- mid a suffix of new: mid = []
      cases mid with
      | nil => simp [drivingDurSum]
      | cons seg rest =>
        exfalso
        refine hfree seg (by simp) (hreset seg ?_)
        rw [hnew]
        simp
    · -- mid = u ++ new: new nonempty and all resets, contradiction
      exfalso
      cases new with
      | nil => exact hne rfl
      | cons seg rest =>
        refine hfree seg ?_ (hreset seg (by simp))
        rw [hmid]
        simp

/-! ### Unfolding equations for the loop phases -/

theorem restart_phase_fire {cfg : Config} {s : LoopState} (hc : s.cycle_remaining ≤ 0) :
    restart_phase cfg s =
      { emit Status.OFF_DUTY cfg.REST_AFTER_CYCLE Label.cycleRestart s.current_hour 0 s with
        cycle_remaining := cfg.MAX_CYCLE_HOURS
        current_drive_window := 0
        current_drive_accumulated := 0
        drive_accumulated_since_last_break := 0 } := by
  unfold restart_phase
  rw [if_pos hc]

theorem restart_phase_skip {cfg : Config} {s : LoopState} (hc : ¬ s.cycle_remaining ≤ 0) :
    restart_phase cfg s = s := by
  unfold restart_phase
  rw [if_neg hc]

theorem drive_phase_fire {cfg : Config} {s : LoopState}
    (ht : 0 < compute_time_to_drive cfg s) :
    drive_phase cfg s =
      { emit Status.DRIVING (compute_time_to_drive cfg s) Label.driving s.current_hour
          (compute_time_to_drive cfg s * cfg.AVG_SPEED_MPH) s with
        dist_to_pickup_miles :=
          if ¬ s.pickup_done then
            s.dist_to_pickup_miles - compute_time_to_drive cfg s * cfg.AVG_SPEED_MPH
          else s.dist_to_pickup_miles
        remaining_dist := s.remaining_dist - compute_time_to_drive cfg s * cfg.AVG_SPEED_MPH
        miles_since_fuel := s.miles_since_fuel + compute_time_to_drive cfg s * cfg.AVG_SPEED_MPH
        current_drive_window := s.current_drive_window + compute_time_to_drive cfg s
        current_drive_accumulated := s.current_drive_accumulated + compute_time_to_drive cfg s
        drive_accumulated_since_last_break :=
          s.drive_accumulated_since_last_break + compute_time_to_drive cfg s
        cycle_remaining := s.cycle_remaining - compute_time_to_drive cfg s } := by
  unfold drive_phase
  rw [if_pos ht]

theorem drive_phase_skip {cfg : Config} {s : LoopState}
    (ht : ¬ 0 < compute_time_to_drive cfg s) :
    drive_phase cfg s = s := by
  unfold drive_phase
  rw [if_neg ht]

theorem pickup_phase_fire {cfg : Config} {s : LoopState}
    (hp : ¬ s.pickup_done ∧ s.dist_to_pickup_miles ≤ 0) :
    pickup_phase cfg s =
      { emit Status.ON_DUTY cfg.PICKUP_TIME Label.pickupLoading s.current_hour 0 s with
        current_drive_window := s.current_drive_window + cfg.PICKUP_TIME
        cycle_remaining := s.cycle_remaining - cfg.PICKUP_TIME
        pickup_done := true } := by
  unfold pickup_phase
  rw [if_pos hp]

theorem pickup_phase_skip {cfg : Config} {s : LoopState}
    (hp : ¬ (¬ s.pickup_done ∧ s.dist_to_pickup_miles ≤ 0)) :
    pickup_phase cfg s = s := by
  unfold pickup_phase
  rw [if_neg hp]

theorem stop_phase_fuel {cfg : Config} {s : LoopState}
    (hf : cfg.MILES_BEFORE_FUEL ≤ s.miles_since_fuel) :
    stop_phase cfg s =
      { emit Status.ON_DUTY cfg.FUELING_DURATION Label.fueling s.current_hour 0 s with
        current_drive_window := s.current_drive_window + cfg.FUELING_DURATION
        cycle_remaining := s.cycle_remaining - cfg.FUELING_DURATION
        miles_since_fuel := 0 } := by
  unfold stop_phase
  rw [if_pos hf]

theorem stop_phase_break {cfg : Config} {s : LoopState}
    (hf : ¬ cfg.MILES_BEFORE_FUEL ≤ s.miles_since_fuel)
    (hb : cfg.BREAK_AFTER ≤ s.drive_accumulated_since_last_break) :
    stop_phase cfg s =
      { emit Status.OFF_DUTY cfg.BREAK_DURATION Label.breakRest s.current_hour 0 s with
        current_drive_window := s.current_drive_window + cfg.BREAK_DURATION
        drive_accumulated_since_last_break := 0 } := by
  unfold stop_phase
  rw [if_neg hf, if_pos hb]

theorem stop_phase_sleeper {cfg : Config} {s : LoopState}
    (hf : ¬ cfg.MILES_BEFORE_FUEL ≤ s.miles_since_fuel)
    (hb : ¬ cfg.BREAK_AFTER ≤ s.drive_accumulated_since_last_break)
    (hs : cfg.MAX_DRIVING_PER_DAY ≤ s.current_drive_accumulated ∨
      cfg.MAX_DRIVE_WINDOW ≤ s.current_drive_window) :
    stop_phase cfg s =
      { emit Status.SLEEPER cfg.SLEEPER_BREAK_HOURS Label.sleep s.current_hour 0 s with
        current_drive_window := 0
        current_drive_accumulated := 0
        drive_accumulated_since_last_break := 0 } := by
  unfold stop_phase
  rw [if_neg hf, if_neg hb, if_pos hs]

theorem stop_phase_skip {cfg : Config} {s : LoopState}
    (hf : ¬ cfg.MILES_BEFORE_FUEL ≤ s.miles_since_fuel)
    (hb : ¬ cfg.BREAK_AFTER ≤ s.drive_accumulated_since_last_break)
    (hs : ¬ (cfg.MAX_DRIVING_PER_DAY ≤ s.current_drive_accumulated ∨
      cfg.MAX_DRIVE_WINDOW ≤ s.current_drive_window)) :
    stop_phase cfg s = s := by
  unfold stop_phase
  rw [if_neg hf, if_neg hb, if_neg hs]

/-! ### Emit-level helpers for the invariant pieces -/

theorem miles_emit (status : Status) (dur : ℚ) (lbl : Label) (sh miles : ℚ)
    (s : LoopState) :
    drivingMilesSum (emit status dur lbl sh miles s).steps =
      drivingMilesSum s.steps + (if status = Status.DRIVING then miles else 0) := by
  rw [emit_steps_eq, drivingMilesSum_append, manage_drivingMilesSum]

theorem daily_emit_add {cfg : Config} {s : LoopState} (h : DailyInv cfg s)
    (status : Status) (dur : ℚ) (lbl : Label) (sh miles : ℚ)
    (hdur : 0 < dur) (ha : 0 ≤ s.current_drive_accumulated)
    (hat : s.current_drive_accumulated + (if status = Status.DRIVING then dur else 0) ≤
      cfg.MAX_DRIVING_PER_DAY) :
    (∀ pre mid post, (emit status dur lbl sh miles s).steps = pre ++ mid ++ post →
      (∀ x ∈ mid, ¬ isReset x) → drivingDurSum mid ≤ cfg.MAX_DRIVING_PER_DAY) ∧
    (∀ pre mid, (emit status dur lbl sh miles s).steps = pre ++ mid →
      (∀ x ∈ mid, ¬ isReset x) → drivingDurSum mid ≤
        s.current_drive_accumulated + (if status = Status.DRIVING then dur else 0)) := by
  simp only [emit_steps_eq]
  exact daily_extend_add h.global h.suffix
    (manage_drivingDurSum status dur lbl sh s.total_elapsed miles)
    (fun seg hs => (manage_dur_pos hdur hs).le) ha hat

theorem daily_emit_reset {cfg : Config} {s : LoopState} (h : DailyInv cfg s)
    (status : Status) (dur : ℚ) (lbl : Label) (sh miles : ℚ)
    (hreset : status = Status.SLEEPER ∨ lbl = Label.cycleRestart)
    (ha : 0 ≤ s.current_drive_accumulated)
    (haM : s.current_drive_accumulated ≤ cfg.MAX_DRIVING_PER_DAY) :
    (∀ pre mid post, (emit status dur lbl sh miles s).steps = pre ++ mid ++ post →
      (∀ x ∈ mid, ¬ isReset x) → drivingDurSum mid ≤ cfg.MAX_DRIVING_PER_DAY) ∧
    (∀ pre mid, (emit status dur lbl sh miles s).steps = pre ++ mid →
      (∀ x ∈ mid, ¬ isReset x) → drivingDurSum mid ≤ 0) := by
  simp only [emit_steps_eq]
  refine daily_extend_reset h.global h.suffix ?_ (by simp) ha haM
  intro seg hs
  rcases manage_mem hs with ⟨h1, h2⟩
  rcases hreset with h3 | h3
  · exact Or.inl (h1.trans h3)
  · exact Or.inr (h2.trans h3)

@[simp] theorem emit_remaining_dist (status : Status) (dur : ℚ) (lbl : Label)
    (sh miles : ℚ) (s : LoopState) :
    (emit status dur lbl sh miles s).remaining_dist = s.remaining_dist := rfl

@[simp] theorem emit_dist_to_pickup (status : Status) (dur : ℚ) (lbl : Label)
    (sh miles : ℚ) (s : LoopState) :
    (emit status dur lbl sh miles s).dist_to_pickup_miles = s.dist_to_pickup_miles := rfl

@[simp] theorem emit_pickup_done (status : Status) (dur : ℚ) (lbl : Label)
    (sh miles : ℚ) (s : LoopState) :
    (emit status dur lbl sh miles s).pickup_done = s.pickup_done := rfl

@[simp] theorem emit_cdw (status : Status) (dur : ℚ) (lbl : Label)
    (sh miles : ℚ) (s : LoopState) :
    (emit status dur lbl sh miles s).current_drive_window = s.current_drive_window := rfl

@[simp] theorem emit_cda (status : Status) (dur : ℚ) (lbl : Label)
    (sh miles : ℚ) (s : LoopState) :
    (emit status dur lbl sh miles s).current_drive_accumulated =
      s.current_drive_accumulated := rfl

@[simp] theorem emit_dasb (status : Status) (dur : ℚ) (lbl : Label)
    (sh miles : ℚ) (s : LoopState) :
    (emit status dur lbl sh miles s).drive_accumulated_since_last_break =
      s.drive_accumulated_since_last_break := rfl

@[simp] theorem emit_msf (status : Status) (dur : ℚ) (lbl : Label)
    (sh miles : ℚ) (s : LoopState) :
    (emit status dur lbl sh miles s).miles_since_fuel = s.miles_since_fuel := rfl

@[simp] theorem emit_cyc (status : Status) (dur : ℚ) (lbl : Label)
    (sh miles : ℚ) (s : LoopState) :
    (emit status dur lbl sh miles s).cycle_remaining = s.cycle_remaining := rfl

/-! ### The loop invariant -/

/-- Invariant maintained by every phase of the main loop.  `total` is the
total trip distance in miles. -/
structure Inv (cfg : Config) (total : ℚ) (s : LoopState) : Prop where
  R_nonneg : 0 ≤ s.remaining_dist
  pickup_nonneg : s.pickup_done = false → 0 ≤ s.dist_to_pickup_miles
  pickup_le : s.pickup_done = false → s.dist_to_pickup_miles ≤ s.remaining_dist
  a_nonneg : 0 ≤ s.current_drive_accumulated
  a_le : s.current_drive_accumulated ≤ cfg.MAX_DRIVING_PER_DAY
  w_nonneg : 0 ≤ s.current_drive_window
  dasb_nonneg : 0 ≤ s.drive_accumulated_since_last_break
  f_nonneg : 0 ≤ s.miles_since_fuel
  cyc_le : s.cycle_remaining ≤ cfg.MAX_CYCLE_HOURS
  shape : StepsInv s
  miles : drivingMilesSum s.steps + s.remaining_dist = total
  daily : DailyInv cfg s

theorem restart_inv {cfg : Config} {total : ℚ} {s : LoopState} (hcfg : CfgOK cfg)
    (h : Inv cfg total s) : Inv cfg total (restart_phase cfg s) := by
  by_cases hc : s.cycle_remaining ≤ 0
  · rw [restart_phase_fire hc]
    have hshape : StepsInv (emit Status.OFF_DUTY cfg.REST_AFTER_CYCLE Label.cycleRestart
        s.current_hour 0 s) :=
      stepsInv_emit h.shape.te_nonneg h.shape.contig h.shape.endeq h.shape.dur_pos h.shape.ee_eq _ hcfg.restCycle_pos _ _ h.shape.ch_eq
    have hdaily := daily_emit_reset h.daily Status.OFF_DUTY cfg.REST_AFTER_CYCLE
      Label.cycleRestart s.current_hour 0 (Or.inr rfl) h.a_nonneg h.a_le
    refine ⟨h.R_nonneg, h.pickup_nonneg, h.pickup_le, le_refl 0, hcfg.maxDaily_pos.le,
      le_refl 0, le_refl 0, h.f_nonneg, le_refl _, ?_, ?_, ?_⟩
    · exact ⟨hshape.te_nonneg, hshape.ch_eq, hshape.contig, hshape.endeq, hshape.dur_pos, hshape.ee_eq⟩
    · show drivingMilesSum (emit Status.OFF_DUTY cfg.REST_AFTER_CYCLE Label.cycleRestart
        s.current_hour 0 s).steps + s.remaining_dist = total
      rw [miles_emit]
      simpa using h.miles
    · exact ⟨hdaily.1, hdaily.2⟩
  · rw [restart_phase_skip hc]
    exact h

theorem drive_miles_le {cfg : Config} {s : LoopState} (hcfg : CfgOK cfg) :
    compute_time_to_drive cfg s * cfg.AVG_SPEED_MPH ≤ dist_to_next_stop s :=
  (le_div_iff₀ hcfg.speed_pos).1 (ttd_le_dist cfg s)

theorem drive_inv {cfg : Config} {total : ℚ} {s : LoopState} (hcfg : CfgOK cfg)
    (h : Inv cfg total s) : Inv cfg total (drive_phase cfg s) := by
  by_cases ht : 0 < compute_time_to_drive cfg s
  · rw [drive_phase_fire ht]
    have hmiles_le : compute_time_to_drive cfg s * cfg.AVG_SPEED_MPH ≤ dist_to_next_stop s :=
      drive_miles_le hcfg
    have hdnn : dist_to_next_stop s ≤ s.remaining_dist := by
      unfold dist_to_next_stop
      cases hpd : s.pickup_done with
      | true => simp
      | false => simpa using h.pickup_le hpd
    have hmpos : 0 < compute_time_to_drive cfg s * cfg.AVG_SPEED_MPH :=
      mul_pos ht hcfg.speed_pos
    have hshape := stepsInv_emit h.shape.te_nonneg h.shape.contig h.shape.endeq h.shape.dur_pos h.shape.ee_eq Status.DRIVING ht Label.driving
      (compute_time_to_drive cfg s * cfg.AVG_SPEED_MPH) h.shape.ch_eq
    have hat : s.current_drive_accumulated + compute_time_to_drive cfg s ≤
        cfg.MAX_DRIVING_PER_DAY := by
      have := ttd_le_daily cfg s
      linarith
    have hdaily := daily_emit_add h.daily Status.DRIVING (compute_time_to_drive cfg s)
      Label.driving s.current_hour (compute_time_to_drive cfg s * cfg.AVG_SPEED_MPH)
      ht h.a_nonneg (by simpa using hat)
    refine ⟨?_, ?_, ?_, ?_, ?_, ?_, ?_, ?_, ?_, ?_, ?_, ?_⟩
    · show (0:ℚ) ≤ s.remaining_dist - compute_time_to_drive cfg s * cfg.AVG_SPEED_MPH
      linarith [h.R_nonneg]
    · show s.pickup_done = false → (0:ℚ) ≤
        (if ¬ s.pickup_done then
          s.dist_to_pickup_miles - compute_time_to_drive cfg s * cfg.AVG_SPEED_MPH
        else s.dist_to_pickup_miles)
      intro hpd
      rw [if_pos (by simp [hpd])]
      have : dist_to_next_stop s = s.dist_to_pickup_miles := by
        unfold dist_to_next_stop
        rw [hpd]
        simp
      linarith [hmiles_le, this ▸ hmiles_le]
    · show s.pickup_done = false →
        (if ¬ s.pickup_done then
          s.dist_to_pickup_miles - compute_time_to_drive cfg s * cfg.AVG_SPEED_MPH
        else s.dist_to_pickup_miles) ≤
          s.remaining_dist - compute_time_to_drive cfg s * cfg.AVG_SPEED_MPH
      intro hpd
      rw [if_pos (by simp [hpd])]
      linarith [h.pickup_le hpd]
    · show (0:ℚ) ≤ s.current_drive_accumulated + compute_time_to_drive cfg s
      linarith [h.a_nonneg]
    · exact hat
    · show (0:ℚ) ≤ s.current_drive_window + compute_time_to_drive cfg s
      linarith [h.w_nonneg]
    · show (0:ℚ) ≤ s.drive_accumulated_since_last_break + compute_time_to_drive cfg s
      linarith [h.dasb_nonneg]
    · show (0:ℚ) ≤ s.miles_since_fuel + compute_time_to_drive cfg s * cfg.AVG_SPEED_MPH
      linarith [h.f_nonneg]
    · show s.cycle_remaining - compute_time_to_drive cfg s ≤ cfg.MAX_CYCLE_HOURS
      linarith [h.cyc_le]
    · exact ⟨hshape.te_nonneg, hshape.ch_eq, hshape.contig, hshape.endeq, hshape.dur_pos, hshape.ee_eq⟩
    · show drivingMilesSum (emit Status.DRIVING (compute_time_to_drive cfg s) Label.driving
          s.current_hour (compute_time_to_drive cfg s * cfg.AVG_SPEED_MPH) s).steps +
        (s.remaining_dist - compute_time_to_drive cfg s * cfg.AVG_SPEED_MPH) = total
      rw [miles_emit]
      have hite : (if Status.DRIVING = Status.DRIVING then
          compute_time_to_drive cfg s * cfg.AVG_SPEED_MPH else 0) =
          compute_time_to_drive cfg s * cfg.AVG_SPEED_MPH := if_pos rfl
      rw [hite]
      have := h.miles
      linarith
    · refine ⟨hdaily.1, ?_⟩
      intro pre mid heq hfree
      have := hdaily.2 pre mid heq hfree
      simpa using this
  · rw [drive_phase_skip ht]
    exact h

theorem pickup_inv {cfg : Config} {total : ℚ} {s : LoopState} (hcfg : CfgOK cfg)
    (h : Inv cfg total s) : Inv cfg total (pickup_phase cfg s) := by
  by_cases hp : ¬ s.pickup_done ∧ s.dist_to_pickup_miles ≤ 0
  · rw [pickup_phase_fire hp]
    have hshape := stepsInv_emit h.shape.te_nonneg h.shape.contig h.shape.endeq h.shape.dur_pos h.shape.ee_eq Status.ON_DUTY hcfg.pickup_pos Label.pickupLoading
      0 h.shape.ch_eq
    have hdaily := daily_emit_add h.daily Status.ON_DUTY cfg.PICKUP_TIME
      Label.pickupLoading s.current_hour 0 hcfg.pickup_pos h.a_nonneg
      (by simpa using h.a_le)
    refine ⟨h.R_nonneg, ?_, ?_, h.a_nonneg, h.a_le, ?_, h.dasb_nonneg, h.f_nonneg, ?_,
      ?_, ?_, ?_⟩
    · intro hpd
      exact absurd hpd (by simp)
    · intro hpd
      exact absurd hpd (by simp)
    · show (0:ℚ) ≤ s.current_drive_window + cfg.PICKUP_TIME
      linarith [h.w_nonneg, hcfg.pickup_pos]
    · show s.cycle_remaining - cfg.PICKUP_TIME ≤ cfg.MAX_CYCLE_HOURS
      linarith [h.cyc_le, hcfg.pickup_pos]
    · exact ⟨hshape.te_nonneg, hshape.ch_eq, hshape.contig, hshape.endeq, hshape.dur_pos, hshape.ee_eq⟩
    · show drivingMilesSum (emit Status.ON_DUTY cfg.PICKUP_TIME Label.pickupLoading
          s.current_hour 0 s).steps + s.remaining_dist = total
      rw [miles_emit]
      simpa using h.miles
    · refine ⟨hdaily.1, ?_⟩
      intro pre mid heq hfree
      have := hdaily.2 pre mid heq hfree
      simpa using this
  · rw [pickup_phase_skip hp]
    exact h

theorem stop_inv {cfg : Config} {total : ℚ} {s : LoopState} (hcfg : CfgOK cfg)
    (h : Inv cfg total s) : Inv cfg total (stop_phase cfg s) := by
  by_cases hf : cfg.MILES_BEFORE_FUEL ≤ s.miles_since_fuel
  · rw [stop_phase_fuel hf]
    have hshape := stepsInv_emit h.shape.te_nonneg h.shape.contig h.shape.endeq h.shape.dur_pos h.shape.ee_eq Status.ON_DUTY hcfg.fuelDur_pos Label.fueling
      0 h.shape.ch_eq
    have hdaily := daily_emit_add h.daily Status.ON_DUTY cfg.FUELING_DURATION
      Label.fueling s.current_hour 0 hcfg.fuelDur_pos h.a_nonneg (by simpa using h.a_le)
    refine ⟨h.R_nonneg, h.pickup_nonneg, h.pickup_le, h.a_nonneg, h.a_le, ?_,
      h.dasb_nonneg, le_refl 0, ?_, ?_, ?_, ?_⟩
    · show (0:ℚ) ≤ s.current_drive_window + cfg.FUELING_DURATION
      linarith [h.w_nonneg, hcfg.fuelDur_pos]
    · show s.cycle_remaining - cfg.FUELING_DURATION ≤ cfg.MAX_CYCLE_HOURS
      linarith [h.cyc_le, hcfg.fuelDur_pos]
    · exact ⟨hshape.te_nonneg, hshape.ch_eq, hshape.contig, hshape.endeq, hshape.dur_pos, hshape.ee_eq⟩
    · show drivingMilesSum (emit Status.ON_DUTY cfg.FUELING_DURATION Label.fueling
          s.current_hour 0 s).steps + s.remaining_dist = total
      rw [miles_emit]
      simpa using h.miles
    · refine ⟨hdaily.1, ?_⟩
      intro pre mid heq hfree
      have := hdaily.2 pre mid heq hfree
      simpa using this
  · by_cases hb : cfg.BREAK_AFTER ≤ s.drive_accumulated_since_last_break
    · rw [stop_phase_break hf hb]
      have hshape := stepsInv_emit h.shape.te_nonneg h.shape.contig h.shape.endeq h.shape.dur_pos h.shape.ee_eq Status.OFF_DUTY hcfg.breakDur_pos Label.breakRest
        0 h.shape.ch_eq
      have hdaily := daily_emit_add h.daily Status.OFF_DUTY cfg.BREAK_DURATION
        Label.breakRest s.current_hour 0 hcfg.breakDur_pos h.a_nonneg (by simpa using h.a_le)
      refine ⟨h.R_nonneg, h.pickup_nonneg, h.pickup_le, h.a_nonneg, h.a_le, ?_,
        le_refl 0, h.f_nonneg, h.cyc_le, ?_, ?_, ?_⟩
      · show (0:ℚ) ≤ s.current_drive_window + cfg.BREAK_DURATION
        linarith [h.w_nonneg, hcfg.breakDur_pos]
      · exact ⟨hshape.te_nonneg, hshape.ch_eq, hshape.contig, hshape.endeq, hshape.dur_pos, hshape.ee_eq⟩
      · show drivingMilesSum (emit Status.OFF_DUTY cfg.BREAK_DURATION Label.breakRest
            s.current_hour 0 s).steps + s.remaining_dist = total
        rw [miles_emit]
        simpa using h.miles
      · refine ⟨hdaily.1, ?_⟩
        intro pre mid heq hfree
        have := hdaily.2 pre mid heq hfree
        simpa using this
    · by_cases hs : cfg.MAX_DRIVING_PER_DAY ≤ s.current_drive_accumulated ∨
        cfg.MAX_DRIVE_WINDOW ≤ s.current_drive_window
      · rw [stop_phase_sleeper hf hb hs]
        have hshape := stepsInv_emit h.shape.te_nonneg h.shape.contig h.shape.endeq h.shape.dur_pos h.shape.ee_eq Status.SLEEPER hcfg.sleeper_pos Label.sleep
          0 h.shape.ch_eq
        have hdaily := daily_emit_reset h.daily Status.SLEEPER cfg.SLEEPER_BREAK_HOURS
          Label.sleep s.current_hour 0 (Or.inl rfl) h.a_nonneg h.a_le
        refine ⟨h.R_nonneg, h.pickup_nonneg, h.pickup_le, le_refl 0, hcfg.maxDaily_pos.le,
          le_refl 0, le_refl 0, h.f_nonneg, h.cyc_le, ?_, ?_, ?_⟩
        · exact ⟨hshape.te_nonneg, hshape.ch_eq, hshape.contig, hshape.endeq, hshape.dur_pos, hshape.ee_eq⟩
        · show drivingMilesSum (emit Status.SLEEPER cfg.SLEEPER_BREAK_HOURS Label.sleep
              s.current_hour 0 s).steps + s.remaining_dist = total
          rw [miles_emit]
          simpa using h.miles
        · exact ⟨hdaily.1, hdaily.2⟩
      · rw [stop_phase_skip hf hb hs]
        exact h

theorem body_inv {cfg : Config} {total : ℚ} {s : LoopState} (hcfg : CfgOK cfg)
    (h : Inv cfg total s) : Inv cfg total (loop_body cfg s) :=
  stop_inv hcfg (pickup_inv hcfg (drive_inv hcfg (restart_inv hcfg h)))

theorem loopGo_inv {cfg : Config} {total : ℚ} (hcfg : CfgOK cfg) :
    ∀ (n : ℕ) (s s' : LoopState), Inv cfg total s → loopGo cfg n s = some s' →
      Inv cfg total s' ∧ s'.remaining_dist ≤ 0 := by
  intro n
  induction n with
  | zero =>
    intro s s' h hgo
    unfold loopGo at hgo
    by_cases hr : 0 < s.remaining_dist
    · rw [if_pos hr] at hgo
      cases hgo
    · rw [if_neg hr] at hgo
      cases hgo
      exact ⟨h, le_of_not_lt hr⟩
  | succ n ih =>
    intro s s' h hgo
    unfold loopGo at hgo
    by_cases hr : 0 < s.remaining_dist
    · rw [if_pos hr] at hgo
      exact ih _ _ (body_inv hcfg h) hgo
    · rw [if_neg hr] at hgo
      cases hgo
      exact ⟨h, le_of_not_lt hr⟩

theorem pymod_zero (m : ℚ) : pymod 0 m = 0 := by
  simp [pymod]

@[simp] theorem base_state_steps (cfg : Config) (g : StepsGenerator) (p d : ℚ) :
    (base_state cfg g p d).steps = [] := rfl

@[simp] theorem base_state_current_hour (cfg : Config) (g : StepsGenerator) (p d : ℚ) :
    (base_state cfg g p d).current_hour = cfg.START_DUTY_HOUR := rfl

@[simp] theorem base_state_total_elapsed (cfg : Config) (g : StepsGenerator) (p d : ℚ) :
    (base_state cfg g p d).total_elapsed = 0 := rfl

@[simp] theorem base_state_remaining (cfg : Config) (g : StepsGenerator) (p d : ℚ) :
    (base_state cfg g p d).remaining_dist =
      p * METERS_TO_MILES + d * METERS_TO_MILES := rfl

@[simp] theorem base_state_pickup (cfg : Config) (g : StepsGenerator) (p d : ℚ) :
    (base_state cfg g p d).dist_to_pickup_miles = p * METERS_TO_MILES := rfl

theorem dailyInv_base (cfg : Config) (g : StepsGenerator) (p d : ℚ) (hcfg : CfgOK cfg) :
    DailyInv cfg (base_state cfg g p d) := by
  constructor
  · intro pre mid post heq hfree
    have h0 : pre ++ mid ++ post = [] := by
      rw [← heq]
      rfl
    rcases List.append_eq_nil.1 h0 with ⟨h1, h2⟩
    rcases List.append_eq_nil.1 h1 with ⟨h3, h4⟩
    subst h4
    simp only [drivingDurSum, List.map_nil, List.sum_nil]
    exact hcfg.maxDaily_pos.le
  · intro pre mid heq hfree
    have h0 : pre ++ mid = [] := by
      rw [← heq]
      rfl
    rcases List.append_eq_nil.1 h0 with ⟨h1, h2⟩
    subst h2
    show drivingDurSum [] ≤ (0:ℚ)
    simp [drivingDurSum]

theorem filler_inv {cfg : Config} {g : StepsGenerator} {p d : ℚ} (hcfg : CfgOK cfg)
    (hp : 0 ≤ p) (hd : 0 ≤ d) (hg : g.cycle_remaining ≤ cfg.MAX_CYCLE_HOURS) :
    Inv cfg (p * METERS_TO_MILES + d * METERS_TO_MILES)
      (start_filler_step (base_state cfg g p d)) := by
  have hMTM : (0:ℚ) ≤ METERS_TO_MILES := by norm_num [METERS_TO_MILES]
  have hpm : (0:ℚ) ≤ p * METERS_TO_MILES := mul_nonneg hp hMTM
  have hdm : (0:ℚ) ≤ d * METERS_TO_MILES := mul_nonneg hd hMTM
  have hdays : DailyInv cfg (base_state cfg g p d) := dailyInv_base cfg g p d hcfg
  unfold start_filler_step
  by_cases hS : 0 < (base_state cfg g p d).current_hour
  · rw [if_pos hS]
    have hshape : StepsInv (emit Status.OFF_DUTY ((base_state cfg g p d).current_hour)
        Label.offDuty 0 0 (base_state cfg g p d)) :=
      stepsInv_emit (le_refl 0) (by exact trivial) (by rfl)
        (fun seg hs => absurd hs (List.not_mem_nil seg))
        (fun seg hs => absurd hs (List.not_mem_nil seg)) Status.OFF_DUTY hS Label.offDuty 0
        (by rw [base_state_total_elapsed, pymod_zero])
    have hdaily := daily_emit_add hdays Status.OFF_DUTY
      ((base_state cfg g p d).current_hour) Label.offDuty 0 0 hS (le_refl 0)
      (by simpa using hcfg.maxDaily_pos.le)
    refine ⟨?_, ?_, ?_, le_refl 0, hcfg.maxDaily_pos.le, le_refl 0, le_refl 0,
      le_refl 0, hg, ?_, ?_, ?_⟩
    · show (0:ℚ) ≤ p * METERS_TO_MILES + d * METERS_TO_MILES
      linarith
    · intro hpd
      show (0:ℚ) ≤ p * METERS_TO_MILES
      exact hpm
    · intro hpd
      show p * METERS_TO_MILES ≤ p * METERS_TO_MILES + d * METERS_TO_MILES
      linarith
    · exact ⟨hshape.te_nonneg, hshape.ch_eq, hshape.contig, hshape.endeq, hshape.dur_pos, hshape.ee_eq⟩
    · show drivingMilesSum (emit Status.OFF_DUTY ((base_state cfg g p d).current_hour)
          Label.offDuty 0 0 (base_state cfg g p d)).steps +
        (p * METERS_TO_MILES + d * METERS_TO_MILES) =
          p * METERS_TO_MILES + d * METERS_TO_MILES
      rw [miles_emit]
      simp [drivingMilesSum]
    · refine ⟨hdaily.1, ?_⟩
      intro pre mid heq hfree
      have := hdaily.2 pre mid heq hfree
      simpa using this
  · rw [if_neg hS]
    have hS0 : cfg.START_DUTY_HOUR = 0 := by
      have h1 : cfg.START_DUTY_HOUR ≤ 0 := by
        simpa using not_lt.1 hS
      exact le_antisymm h1 hcfg.start_nonneg
    refine ⟨?_, ?_, ?_, le_refl 0, hcfg.maxDaily_pos.le, le_refl 0, le_refl 0,
      le_refl 0, hg, ?_, ?_, hdays⟩
    · show (0:ℚ) ≤ p * METERS_TO_MILES + d * METERS_TO_MILES
      linarith
    · intro hpd
      exact hpm
    · intro hpd
      show p * METERS_TO_MILES ≤ p * METERS_TO_MILES + d * METERS_TO_MILES
      linarith
    · refine ⟨le_refl 0, ?_, trivial, rfl, fun seg hs => absurd hs (List.not_mem_nil seg),
        fun seg hs => absurd hs (List.not_mem_nil seg)⟩
      show cfg.START_DUTY_HOUR = pymod 0 24
      rw [hS0, pymod_zero]
    · show drivingMilesSum [] + (p * METERS_TO_MILES + d * METERS_TO_MILES) =
        p * METERS_TO_MILES + d * METERS_TO_MILES
      simp [drivingMilesSum]

theorem pretrip_inv {cfg : Config} {total : ℚ} {s : LoopState} (hcfg : CfgOK cfg)
    (h : Inv cfg total s) : Inv cfg total (pretrip_step cfg s) := by
  unfold pretrip_step
  have hshape := stepsInv_emit h.shape.te_nonneg h.shape.contig h.shape.endeq
    h.shape.dur_pos h.shape.ee_eq Status.ON_DUTY hcfg.pretrip_pos Label.preTrip 0
    h.shape.ch_eq
  have hdaily := daily_emit_add h.daily Status.ON_DUTY cfg.PRE_TRIP_INSPECTION_TIME
    Label.preTrip s.current_hour 0 hcfg.pretrip_pos h.a_nonneg (by simpa using h.a_le)
  refine ⟨h.R_nonneg, h.pickup_nonneg, h.pickup_le, h.a_nonneg, h.a_le, ?_,
    h.dasb_nonneg, h.f_nonneg, ?_, ?_, ?_, ?_⟩
  · show (0:ℚ) ≤ s.current_drive_window + cfg.PRE_TRIP_INSPECTION_TIME
    linarith [h.w_nonneg, hcfg.pretrip_pos]
  · show s.cycle_remaining - cfg.PRE_TRIP_INSPECTION_TIME ≤ cfg.MAX_CYCLE_HOURS
    linarith [h.cyc_le, hcfg.pretrip_pos]
  · exact ⟨hshape.te_nonneg, hshape.ch_eq, hshape.contig, hshape.endeq, hshape.dur_pos, hshape.ee_eq⟩
  · show drivingMilesSum (emit Status.ON_DUTY cfg.PRE_TRIP_INSPECTION_TIME Label.preTrip
        s.current_hour 0 s).steps + s.remaining_dist = total
    rw [miles_emit]
    simpa using h.miles
  · refine ⟨hdaily.1, ?_⟩
    intro pre mid heq hfree
    have := hdaily.2 pre mid heq hfree
    simpa using this

theorem init_inv {cfg : Config} {g : StepsGenerator} {p d : ℚ} (hcfg : CfgOK cfg)
    (hp : 0 ≤ p) (hd : 0 ≤ d) (hg : g.cycle_remaining ≤ cfg.MAX_CYCLE_HOURS) :
    Inv cfg (p * METERS_TO_MILES + d * METERS_TO_MILES) (init_state cfg g p d) :=
  pretrip_inv hcfg (filler_inv hcfg hp hd hg)

/-! ### Concrete configurations for witnesses and counterexamples.
`cfgT` uses the constants mocked in `src/logs/tests.py` (with
`MAX_CYCLE_HOURS = 70`, the value the non-mocked settings test asserts). -/

def cfgT : Config :=
  { MAX_CYCLE_HOURS := 70
    MAX_DRIVING_PER_DAY := 11
    MAX_DRIVE_WINDOW := 14
    BREAK_AFTER := 8
    BREAK_DURATION := 1/2
    AVG_SPEED_MPH := 60
    PICKUP_TIME := 1
    DROPOFF_TIME := 1/2
    PRE_TRIP_INSPECTION_TIME := 1/4
    MILES_BEFORE_FUEL := 500
    FUELING_DURATION := 1/2
    SLEEPER_BREAK_HOURS := 10
    REST_AFTER_CYCLE := 10
    START_DUTY_HOUR := 6 }

theorem cfgT_ok : CfgOK cfgT := by
  constructor <;> norm_num [cfgT]

/-- Meters giving exactly 30 miles (`30 / 0.000621371`). -/
def mT : ℚ := 30000000000 / 621371

theorem mT_miles : mT * METERS_TO_MILES = 30 := by
  norm_num [mT, METERS_TO_MILES]

/-! ### Destructuring `generate_steps` -/

theorem generate_steps_some {cfg : Config} {g : StepsGenerator} {p d : ℚ} {fuel : ℕ}
    {steps : List Segment} {g' : StepsGenerator}
    (h : generate_steps cfg g p d fuel = some (steps, g')) :
    ∃ s', loopGo cfg fuel (init_state cfg g p d) = some s' ∧
      steps = (final_phase cfg s').steps ∧
      g' = ⟨(final_phase cfg s').cycle_remaining⟩ := by
  unfold generate_steps at h
  cases hgo : loopGo cfg fuel (init_state cfg g p d) with
  | none =>
    rw [hgo] at h
    cases h
  | some s' =>
    rw [hgo] at h
    simp only [Option.some.injEq, Prod.mk.injEq] at h
    exact ⟨s', rfl, h.1.symm, h.2.symm⟩

/-! ### Facts about `final_phase` -/

theorem final_phase_shape {cfg : Config} {s : LoopState} (hcfg : CfgOK cfg)
    (h : StepsInv s) : StepsInv (final_phase cfg s) := by
  unfold final_phase
  have h1 : StepsInv (emit Status.ON_DUTY cfg.DROPOFF_TIME Label.dropOff
      s.current_hour 0 s) :=
    stepsInv_emit h.te_nonneg h.contig h.endeq h.dur_pos h.ee_eq Status.ON_DUTY
      hcfg.dropoff_pos Label.dropOff 0 h.ch_eq
  set s1 := emit Status.ON_DUTY cfg.DROPOFF_TIME Label.dropOff s.current_hour 0 s with hs1
  by_cases hl : 0 < 24 - pymod s1.current_hour 24
  · rw [if_pos hl]
    have h24 : (24 : ℚ) ≠ 0 := by norm_num
    constructor
    · show 0 ≤ s1.total_elapsed + (24 - pymod s1.current_hour 24)
      linarith [h1.te_nonneg]
    · show (create_segment Status.OFF_DUTY (24 - pymod s1.current_hour 24) Label.offDuty
        s1.current_hour s1.total_elapsed 0).end_hour =
        pymod (s1.total_elapsed + (24 - pymod s1.current_hour 24)) 24
      simp only [create_segment]
      rw [h1.ch_eq, pymod_pymod_add h24]
    · show contigFrom 0 (s1.steps ++ [Dlogs.create_segment Status.OFF_DUTY
        (24 - pymod s1.current_hour 24) Label.offDuty s1.current_hour s1.total_elapsed 0])
      rw [contigFrom_append]
      refine ⟨h1.contig, ?_⟩
      rw [h1.endeq]
      exact ⟨rfl, trivial⟩
    · show endFrom 0 (s1.steps ++ [Dlogs.create_segment Status.OFF_DUTY
        (24 - pymod s1.current_hour 24) Label.offDuty s1.current_hour s1.total_elapsed 0]) =
        s1.total_elapsed + (24 - pymod s1.current_hour 24)
      rw [endFrom_append, h1.endeq]
      rfl
    · intro seg hseg
      rcases List.mem_append.1 hseg with h2 | h2
      · exact h1.dur_pos seg h2
      · rw [List.mem_singleton] at h2
        subst h2
        exact hl
    · intro seg hseg
      rcases List.mem_append.1 hseg with h2 | h2
      · exact h1.ee_eq seg h2
      · rw [List.mem_singleton] at h2
        subst h2
        rfl
  · rw [if_neg hl]
    exact h1

theorem final_phase_miles {cfg : Config} (s : LoopState) :
    drivingMilesSum (final_phase cfg s).steps = drivingMilesSum s.steps := by
  unfold final_phase
  set s1 := emit Status.ON_DUTY cfg.DROPOFF_TIME Label.dropOff s.current_hour 0 s with hs1
  have h1 : drivingMilesSum s1.steps = drivingMilesSum s.steps := by
    rw [hs1, miles_emit]
    simp
  by_cases hl : 0 < 24 - pymod s1.current_hour 24
  · rw [if_pos hl]
    show drivingMilesSum (s1.steps ++ [Dlogs.create_segment Status.OFF_DUTY
      (24 - pymod s1.current_hour 24) Label.offDuty s1.current_hour s1.total_elapsed 0]) =
      drivingMilesSum s.steps
    rw [drivingMilesSum_append, h1]
    simp [drivingMilesSum, create_segment]
  · rw [if_neg hl]
    exact h1

theorem final_phase_remaining {cfg : Config} (s : LoopState) :
    (final_phase cfg s).remaining_dist = s.remaining_dist := by
  unfold final_phase
  by_cases hl : 0 < 24 - pymod (emit Status.ON_DUTY cfg.DROPOFF_TIME Label.dropOff
      s.current_hour 0 s).current_hour 24
  · rw [if_pos hl]
    rfl
  · rw [if_neg hl]
    rfl

/-! ### C7: the midnight-splitting example and its strict boundary -/

/-- C7: `manage_create_segment` with status DRIVING, duration 4, start hour 22,
elapsed start 22 and 300 miles appends exactly one 2-hour/150-mile segment
covering elapsed hours 22 to 24 and returns a 2-hour/150-mile segment starting
at hour 0 with elapsed start 24; and a duration of exactly
`24 - (elapsed_start mod 24)` produces a single unsplit segment (the crossing
condition is strict). -/
theorem c7_midnight_split :
    (∀ lbl : Label,
      manage_create_segment Status.DRIVING 4 lbl 22 22 300 =
        ([{ status := Status.DRIVING, duration := 2, label := lbl, start_hour := 22,
            end_hour := 0, elapsed_start := 22, elapsed_end := 24, day_number := 1,
            miles_moved := 150 }],
         { status := Status.DRIVING, duration := 2, label := lbl, start_hour := 0,
           end_hour := 2, elapsed_start := 24, elapsed_end := 26, day_number := 2,
           miles_moved := 150 })) ∧
    (∀ (status : Status) (dur : ℚ) (lbl : Label) (sh es miles : ℚ),
      dur = 24 - pymod es 24 →
      manage_create_segment status dur lbl sh es miles =
        ([], create_segment status dur lbl sh es miles)) := by
  constructor
  · intro lbl
    cases lbl <;> with_unfolding_all decide
  · intro status dur lbl sh es miles hdur
    have hsum : pymod es 24 + dur = 24 := by
      rw [hdur]
      ring
    unfold manage_create_segment
    rw [if_neg]
    intro hlt
    rw [hsum] at hlt
    exact lt_irrefl 24 hlt

/-- Witness for C7 at a concrete boundary input. -/
theorem c7_witness :
    manage_create_segment Status.DRIVING 2 Label.driving 22 22 300 =
      ([], create_segment Status.DRIVING 2 Label.driving 22 22 300) :=
  c7_midnight_split.2 Status.DRIVING 2 Label.driving 22 22 300 (by with_unfolding_all decide)

/-! ### C2: mileage conservation -/

theorem init_cycle_le {cfg : Config} {cu : ℚ} (hcu : 0 ≤ cu) :
    (stepsGenerator_init cfg cu).cycle_remaining ≤ cfg.MAX_CYCLE_HOURS := by
  simp only [stepsGenerator_init]
  linarith

/-- C2: for every terminating call of `generate_steps` with non-negative input
distances (and a validated configuration), the sum of `miles_moved` over
DRIVING segments equals `(dist_to_pickup_meters + dist_to_dropoff_meters) *
0.000621371` exactly (hence within any floating-point tolerance); and the
midnight splitter distributes `miles_moved` exactly: the segments it produces
always sum to the original `miles_moved`. -/
theorem c2_mileage_conservation {cfg : Config} {cu p d : ℚ} {fuel : ℕ}
    {steps : List Segment} {g' : StepsGenerator}
    (hcfg : CfgOK cfg) (hp : 0 ≤ p) (hd : 0 ≤ d) (hcu : 0 ≤ cu)
    (h : generate_steps cfg (stepsGenerator_init cfg cu) p d fuel = some (steps, g')) :
    drivingMilesSum steps = (p + d) * METERS_TO_MILES ∧
    (∀ (status : Status) (dur : ℚ) (lbl : Label) (sh es miles : ℚ),
      (((manage_create_segment status dur lbl sh es miles).1 ++
        [(manage_create_segment status dur lbl sh es miles).2]).map
          (fun seg => seg.miles_moved)).sum = miles) := by
  constructor
  · obtain ⟨s', hgo, hsteps, hg⟩ := generate_steps_some h
    have hinv0 := init_inv hcfg hp hd (init_cycle_le hcu)
    obtain ⟨hinv, hR⟩ := loopGo_inv hcfg fuel _ s' hinv0 hgo
    have hR0 : s'.remaining_dist = 0 := le_antisymm hR hinv.R_nonneg
    have hmm := hinv.miles
    rw [hR0] at hmm
    rw [hsteps, final_phase_miles]
    have hr : (p + d) * METERS_TO_MILES = p * METERS_TO_MILES + d * METERS_TO_MILES := by
      ring
    rw [hr]
    linarith
  · exact fun status dur lbl sh es miles => manage_milesSum status dur lbl sh es miles

/-- Witness for C2: a concrete 30-mile + 30-mile trip under the test
configuration. -/
theorem c2_witness : ∃ steps g',
    generate_steps cfgT (stepsGenerator_init cfgT 0) mT mT 6 = some (steps, g') ∧
    drivingMilesSum steps = (mT + mT) * METERS_TO_MILES := by
  cases hgen : generate_steps cfgT (stepsGenerator_init cfgT 0) mT mT 6 with
  | none =>
    exact absurd hgen (by with_unfolding_all decide)
  | some r =>
    obtain ⟨stepsr, gr⟩ := r
    refine ⟨stepsr, gr, rfl, ?_⟩
    exact (c2_mileage_conservation cfgT_ok (by norm_num [mT]) (by norm_num [mT])
      le_rfl hgen).1

/-! ### C3: contiguity and monotonicity of the output sequence -/

theorem contigFrom_chain' {t : ℚ} {l : List Segment} (h : contigFrom t l) :
    List.Chain' (fun a b => a.elapsed_end = b.elapsed_start) l := by
  induction l generalizing t with
  | nil => simp
  | cons seg rest ih =>
    cases rest with
    | nil => simp
    | cons seg2 rest2 =>
      obtain ⟨h1, h2⟩ := h
      rw [List.chain'_cons]
      exact ⟨h2.1.symm, ih h2⟩

theorem contigFrom_start_ge {l : List Segment} :
    ∀ {t : ℚ}, contigFrom t l →
      (∀ seg ∈ l, 0 ≤ seg.duration) →
      (∀ seg ∈ l, seg.elapsed_end = seg.elapsed_start + seg.duration) →
      ∀ x ∈ l, t ≤ x.elapsed_start := by
  induction l with
  | nil =>
    intro t h hdur hee x hx
    exact absurd hx (List.not_mem_nil x)
  | cons seg rest ih =>
    intro t h hdur hee x hx
    obtain ⟨h1, h2⟩ := h
    rcases List.mem_cons.1 hx with hx1 | hx1
    · subst hx1
      rw [h1]
    · have hdur' : ∀ y ∈ rest, 0 ≤ y.duration := fun y hy => hdur y (by simp [hy])
      have hee' : ∀ y ∈ rest, y.elapsed_end = y.elapsed_start + y.duration :=
        fun y hy => hee y (by simp [hy])
      have := ih h2 hdur' hee' x hx1
      have hd0 : 0 ≤ seg.duration := hdur seg (by simp)
      have he0 : seg.elapsed_end = seg.elapsed_start + seg.duration := hee seg (by simp)
      rw [he0, h1] at this
      linarith

theorem contigFrom_pairwise {l : List Segment} :
    ∀ {t : ℚ}, contigFrom t l →
      (∀ seg ∈ l, 0 ≤ seg.duration) →
      (∀ seg ∈ l, seg.elapsed_end = seg.elapsed_start + seg.duration) →
      List.Pairwise (fun a b => a.elapsed_start ≤ b.elapsed_start) l := by
  induction l with
  | nil =>
    intro t _ _ _
    simp
  | cons seg rest ih =>
    intro t h hdur hee
    obtain ⟨h1, h2⟩ := h
    have hdur' : ∀ y ∈ rest, 0 ≤ y.duration := fun y hy => hdur y (by simp [hy])
    have hee' : ∀ y ∈ rest, y.elapsed_end = y.elapsed_start + y.duration :=
      fun y hy => hee y (by simp [hy])
    refine List.Pairwise.cons ?_ (ih h2 hdur' hee')
    intro x hx
    have hge := contigFrom_start_ge h2 hdur' hee' x hx
    have hd0 : 0 ≤ seg.duration := hdur seg (by simp)
    have he0 : seg.elapsed_end = seg.elapsed_start + seg.duration := hee seg (by simp)
    rw [he0, h1] at hge
    linarith

/-- C3: every sequence returned by `generate_steps` is contiguous (each
segment's `elapsed_end` equals the next segment's `elapsed_start`) and its
`elapsed_start` values are non-decreasing, across midnight splits and the
leading and trailing OFF_DUTY fillers. -/
theorem c3_contiguity {cfg : Config} {cu p d : ℚ} {fuel : ℕ}
    {steps : List Segment} {g' : StepsGenerator}
    (hcfg : CfgOK cfg) (hp : 0 ≤ p) (hd : 0 ≤ d) (hcu : 0 ≤ cu)
    (h : generate_steps cfg (stepsGenerator_init cfg cu) p d fuel = some (steps, g')) :
    List.Chain' (fun a b => a.elapsed_end = b.elapsed_start) steps ∧
    List.Pairwise (fun a b => a.elapsed_start ≤ b.elapsed_start) steps := by
  obtain ⟨s', hgo, hsteps, hg⟩ := generate_steps_some h
  have hinv0 := init_inv hcfg hp hd (init_cycle_le hcu)
  obtain ⟨hinv, hR⟩ := loopGo_inv hcfg fuel _ s' hinv0 hgo
  have hshape := final_phase_shape hcfg hinv.shape
  rw [hsteps]
  refine ⟨contigFrom_chain' hshape.contig, ?_⟩
  exact contigFrom_pairwise hshape.contig
    (fun seg hs => (hshape.dur_pos seg hs).le) hshape.ee_eq

/-- Witness for C3 at a concrete trip. -/
theorem c3_witness : ∃ steps g',
    generate_steps cfgT (stepsGenerator_init cfgT 0) mT mT 6 = some (steps, g') ∧
    List.Chain' (fun a b => a.elapsed_end = b.elapsed_start) steps ∧
    List.Pairwise (fun a b => a.elapsed_start ≤ b.elapsed_start) steps := by
  cases hgen : generate_steps cfgT (stepsGenerator_init cfgT 0) mT mT 6 with
  | none =>
    exact absurd hgen (by with_unfolding_all decide)
  | some r =>
    obtain ⟨stepsr, gr⟩ := r
    refine ⟨stepsr, gr, rfl, ?_⟩
    exact c3_contiguity cfgT_ok (by norm_num [mT]) (by norm_num [mT]) le_rfl hgen

/-! ### C10: the closing OFF_DUTY filler -/

theorem loopGo_exit {cfg : Config} {s : LoopState} (h : ¬ 0 < s.remaining_dist) :
    ∀ n : ℕ, loopGo cfg n s = some s := by
  intro n
  cases n with
  | zero =>
    unfold loopGo
    rw [if_neg h]
  | succ n =>
    unfold loopGo
    rw [if_neg h]

theorem emit_nosplit {s : LoopState} (status : Status) {dur : ℚ} (lbl : Label)
    (sh miles : ℚ) (h : ¬ 24 < pymod s.total_elapsed 24 + dur) :
    emit status dur lbl sh miles s =
      { s with
        steps := s.steps ++ [create_segment status dur lbl sh s.total_elapsed miles]
        current_hour := (create_segment status dur lbl sh s.total_elapsed miles).end_hour
        total_elapsed := s.total_elapsed + dur } := by
  have hpr : manage_create_segment status dur lbl sh s.total_elapsed miles =
      ([], create_segment status dur lbl sh s.total_elapsed miles) := by
    rw [manage_split_iff, if_neg h]
  simp only [emit, hpr]
  rw [List.append_nil]

/-- C10: every terminating run of `generate_steps` ends with an OFF_DUTY
filler segment: its duration lies in `(0, 24]` (the positivity guard always
passes because `left_time = 24 - current_hour mod 24`), its `elapsed_end` is an
exact multiple of 24 hours, and when the drop-off ends exactly at the midnight
boundary (`start_hour = 0`) the filler is an entire additional 24-hour
OFF_DUTY segment. -/
theorem c10_closing_filler {cfg : Config} {cu p d : ℚ} {fuel : ℕ}
    {steps : List Segment} {g' : StepsGenerator}
    (hcfg : CfgOK cfg) (hp : 0 ≤ p) (hd : 0 ≤ d) (hcu : 0 ≤ cu)
    (h : generate_steps cfg (stepsGenerator_init cfg cu) p d fuel = some (steps, g')) :
    ∃ L fin, steps = L ++ [fin] ∧ fin.status = Status.OFF_DUTY ∧
      fin.label = Label.offDuty ∧ 0 < fin.duration ∧ fin.duration ≤ 24 ∧
      (∃ k : ℤ, fin.elapsed_end = 24 * (k : ℚ)) ∧
      (fin.start_hour = 0 → fin.duration = 24) := by
  obtain ⟨s', hgo, hsteps, hg⟩ := generate_steps_some h
  have hinv0 := init_inv hcfg hp hd (init_cycle_le hcu)
  obtain ⟨hinv, hR⟩ := loopGo_inv hcfg fuel _ s' hinv0 hgo
  have h1 : StepsInv (emit Status.ON_DUTY cfg.DROPOFF_TIME Label.dropOff
      s'.current_hour 0 s') :=
    stepsInv_emit hinv.shape.te_nonneg hinv.shape.contig hinv.shape.endeq
      hinv.shape.dur_pos hinv.shape.ee_eq Status.ON_DUTY hcfg.dropoff_pos
      Label.dropOff 0 hinv.shape.ch_eq
  have h24 : (0:ℚ) < 24 := by norm_num
  set s1 := emit Status.ON_DUTY cfg.DROPOFF_TIME Label.dropOff s'.current_hour 0 s'
    with hs1
  have hch0 : 0 ≤ s1.current_hour := by
    rw [h1.ch_eq]
    exact pymod_nonneg h24 _
  have hch24 : s1.current_hour < 24 := by
    rw [h1.ch_eq]
    exact pymod_lt h24 _
  have hpm : pymod s1.current_hour 24 = s1.current_hour := pymod_eq_self hch0 hch24
  have hguard : 0 < 24 - pymod s1.current_hour 24 := by
    rw [hpm]
    linarith
  have hfp : (final_phase cfg s').steps = s1.steps ++
      [create_segment Status.OFF_DUTY (24 - pymod s1.current_hour 24) Label.offDuty
        s1.current_hour s1.total_elapsed 0] := by
    unfold final_phase
    rw [← hs1, if_pos hguard]
  refine ⟨s1.steps, _, by rw [hsteps, hfp], rfl, rfl, ?_, ?_, ?_, ?_⟩
  · show (0:ℚ) < 24 - pymod s1.current_hour 24
    exact hguard
  · show 24 - pymod s1.current_hour 24 ≤ 24
    have := pymod_nonneg h24 s1.current_hour
    linarith
  · refine ⟨⌊s1.total_elapsed / 24⌋ + 1, ?_⟩
    show s1.total_elapsed + (24 - pymod s1.current_hour 24) =
      24 * ((⌊s1.total_elapsed / 24⌋ + 1 : ℤ) : ℚ)
    rw [h1.ch_eq, pymod_eq_self (pymod_nonneg h24 _) (pymod_lt h24 _)]
    rw [add_sub_pymod]
    push_cast
    ring
  · intro hsh
    show 24 - pymod s1.current_hour 24 = 24
    change s1.current_hour = 0 at hsh
    rw [hsh, pymod_zero]
    ring

/-- Witness for C10 at a concrete trip. -/
theorem c10_witness : ∃ steps g',
    generate_steps cfgT (stepsGenerator_init cfgT 0) mT mT 6 = some (steps, g') ∧
    ∃ L fin, steps = L ++ [fin] ∧ fin.status = Status.OFF_DUTY ∧
      fin.label = Label.offDuty ∧ 0 < fin.duration ∧ fin.duration ≤ 24 ∧
      (∃ k : ℤ, fin.elapsed_end = 24 * (k : ℚ)) ∧
      (fin.start_hour = 0 → fin.duration = 24) := by
  cases hgen : generate_steps cfgT (stepsGenerator_init cfgT 0) mT mT 6 with
  | none =>
    exact absurd hgen (by with_unfolding_all decide)
  | some r =>
    obtain ⟨stepsr, gr⟩ := r
    refine ⟨stepsr, gr, rfl, ?_⟩
    exact c10_closing_filler cfgT_ok (by norm_num [mT]) (by norm_num [mT]) le_rfl hgen

/-! ### C9: the zero-distance trip -/

theorem create_end_hour (status : Status) (dur : ℚ) (lbl : Label) (sh es miles : ℚ) :
    (create_segment status dur lbl sh es miles).end_hour = pymod (sh + dur) 24 := rfl

/-- The state entering the main loop for a zero-distance trip with no cycle
hours used, assuming the bookends fit within the first day. -/
theorem c9_init_state {cfg : Config} (hcfg : CfgOK cfg)
    (hfit : cfg.START_DUTY_HOUR + cfg.PRE_TRIP_INSPECTION_TIME + cfg.DROPOFF_TIME ≤ 24) :
    init_state cfg (stepsGenerator_init cfg 0) 0 0 =
      { steps := (if 0 < cfg.START_DUTY_HOUR then
          [create_segment Status.OFF_DUTY cfg.START_DUTY_HOUR Label.offDuty 0 0 0]
        else []) ++
          [create_segment Status.ON_DUTY cfg.PRE_TRIP_INSPECTION_TIME Label.preTrip
            cfg.START_DUTY_HOUR cfg.START_DUTY_HOUR 0]
        current_hour := cfg.START_DUTY_HOUR + cfg.PRE_TRIP_INSPECTION_TIME
        total_elapsed := cfg.START_DUTY_HOUR + cfg.PRE_TRIP_INSPECTION_TIME
        current_drive_window := cfg.PRE_TRIP_INSPECTION_TIME
        current_drive_accumulated := 0
        drive_accumulated_since_last_break := 0
        miles_since_fuel := 0
        cycle_remaining := cfg.MAX_CYCLE_HOURS - cfg.PRE_TRIP_INSPECTION_TIME
        dist_to_pickup_miles := 0
        remaining_dist := 0
        pickup_done := false } := by
  have hS0 : 0 ≤ cfg.START_DUTY_HOUR := hcfg.start_nonneg
  have hSlt : cfg.START_DUTY_HOUR < 24 := hcfg.start_lt
  have hPT : 0 < cfg.PRE_TRIP_INSPECTION_TIME := hcfg.pretrip_pos
  have hDO : 0 < cfg.DROPOFF_TIME := hcfg.dropoff_pos
  have hSPT : cfg.START_DUTY_HOUR + cfg.PRE_TRIP_INSPECTION_TIME < 24 := by linarith
  have pmS : pymod cfg.START_DUTY_HOUR 24 = cfg.START_DUTY_HOUR :=
    pymod_eq_self hS0 hSlt
  have pmSPT : pymod (cfg.START_DUTY_HOUR + cfg.PRE_TRIP_INSPECTION_TIME) 24 =
      cfg.START_DUTY_HOUR + cfg.PRE_TRIP_INSPECTION_TIME :=
    pymod_eq_self (by linarith) hSPT
  have hA : start_filler_step (base_state cfg (stepsGenerator_init cfg 0) 0 0) =
      { base_state cfg (stepsGenerator_init cfg 0) 0 0 with
        steps := (if 0 < cfg.START_DUTY_HOUR then
          [create_segment Status.OFF_DUTY cfg.START_DUTY_HOUR Label.offDuty 0 0 0]
        else [])
        current_hour := cfg.START_DUTY_HOUR
        total_elapsed := cfg.START_DUTY_HOUR } := by
    unfold start_filler_step
    simp only [base_state_current_hour]
    by_cases hS : 0 < cfg.START_DUTY_HOUR
    · rw [if_pos hS, if_pos hS]
      rw [emit_nosplit Status.OFF_DUTY Label.offDuty 0 0 (by
        show ¬ 24 < pymod 0 24 + cfg.START_DUTY_HOUR
        rw [pymod_zero]
        linarith)]
      ext <;> try rfl
      · show (create_segment Status.OFF_DUTY cfg.START_DUTY_HOUR Label.offDuty
          0 0 0).end_hour = cfg.START_DUTY_HOUR
        rw [create_end_hour, zero_add, pmS]
      · show (0:ℚ) + cfg.START_DUTY_HOUR = cfg.START_DUTY_HOUR
        rw [zero_add]
    · rw [if_neg hS, if_neg hS]
      have hS0eq : cfg.START_DUTY_HOUR = 0 := le_antisymm (not_lt.1 hS) hS0
      ext <;> try rfl
      · show (0:ℚ) = cfg.START_DUTY_HOUR
        rw [hS0eq]
  show pretrip_step cfg (start_filler_step (base_state cfg (stepsGenerator_init cfg 0)
    0 0)) = _
  rw [hA]
  unfold pretrip_step
  rw [emit_nosplit Status.ON_DUTY Label.preTrip _ 0 (by
    show ¬ 24 < pymod cfg.START_DUTY_HOUR 24 + cfg.PRE_TRIP_INSPECTION_TIME
    rw [pmS]
    linarith)]
  ext <;> try rfl
  · show (create_segment Status.ON_DUTY cfg.PRE_TRIP_INSPECTION_TIME Label.preTrip
      cfg.START_DUTY_HOUR cfg.START_DUTY_HOUR 0).end_hour =
      cfg.START_DUTY_HOUR + cfg.PRE_TRIP_INSPECTION_TIME
    rw [create_end_hour, pmSPT]
  · show (0:ℚ) + cfg.PRE_TRIP_INSPECTION_TIME = cfg.PRE_TRIP_INSPECTION_TIME
    rw [zero_add]
  · show cfg.MAX_CYCLE_HOURS - 0 - cfg.PRE_TRIP_INSPECTION_TIME =
      cfg.MAX_CYCLE_HOURS - cfg.PRE_TRIP_INSPECTION_TIME
    ring
  · show (0:ℚ) * METERS_TO_MILES = 0
    exact zero_mul _
  · show (0:ℚ) * METERS_TO_MILES + 0 * METERS_TO_MILES = 0
    norm_num

/-- C9: with both input distances 0 and `cycle_used_hours = 0` (under a
validated configuration whose bookend durations fit in the first day),
`generate_steps` returns exactly the fixed bookend segments — the start-of-day
OFF_DUTY filler when `START_DUTY_HOUR > 0`, the Pre-trip Inspection ON_DUTY
segment, the Drop-off Unloading ON_DUTY segment, and the end-of-day OFF_DUTY
filler (always positive here) — with zero total driving mileage and no
DRIVING, pickup, break, fueling, sleeper or cycle-restart segment. -/
theorem c9_zero_distance {cfg : Config} (fuel : ℕ) (hcfg : CfgOK cfg)
    (hfit : cfg.START_DUTY_HOUR + cfg.PRE_TRIP_INSPECTION_TIME + cfg.DROPOFF_TIME ≤ 24) :
    generate_steps cfg (stepsGenerator_init cfg 0) 0 0 fuel =
      some ((if 0 < cfg.START_DUTY_HOUR then
          [create_segment Status.OFF_DUTY cfg.START_DUTY_HOUR Label.offDuty 0 0 0]
        else []) ++
        [create_segment Status.ON_DUTY cfg.PRE_TRIP_INSPECTION_TIME Label.preTrip
           cfg.START_DUTY_HOUR cfg.START_DUTY_HOUR 0,
         create_segment Status.ON_DUTY cfg.DROPOFF_TIME Label.dropOff
           (cfg.START_DUTY_HOUR + cfg.PRE_TRIP_INSPECTION_TIME)
           (cfg.START_DUTY_HOUR + cfg.PRE_TRIP_INSPECTION_TIME) 0,
         create_segment Status.OFF_DUTY
           (24 - pymod (cfg.START_DUTY_HOUR + cfg.PRE_TRIP_INSPECTION_TIME +
             cfg.DROPOFF_TIME) 24) Label.offDuty
           (pymod (cfg.START_DUTY_HOUR + cfg.PRE_TRIP_INSPECTION_TIME +
             cfg.DROPOFF_TIME) 24)
           (cfg.START_DUTY_HOUR + cfg.PRE_TRIP_INSPECTION_TIME + cfg.DROPOFF_TIME) 0],
        ⟨cfg.MAX_CYCLE_HOURS - cfg.PRE_TRIP_INSPECTION_TIME⟩) ∧
    (∀ (steps : List Segment) (g' : StepsGenerator),
      generate_steps cfg (stepsGenerator_init cfg 0) 0 0 fuel = some (steps, g') →
      drivingMilesSum steps = 0 ∧
      ∀ seg ∈ steps, seg.status ≠ Status.DRIVING ∧ seg.status ≠ Status.SLEEPER ∧
        seg.label ≠ Label.pickupLoading ∧ seg.label ≠ Label.fueling ∧
        seg.label ≠ Label.breakRest ∧ seg.label ≠ Label.cycleRestart) := by
  have h24 : (0:ℚ) < 24 := by norm_num
  have hSPT : cfg.START_DUTY_HOUR + cfg.PRE_TRIP_INSPECTION_TIME < 24 := by
    have := hcfg.dropoff_pos
    linarith
  have pmSPT : pymod (cfg.START_DUTY_HOUR + cfg.PRE_TRIP_INSPECTION_TIME) 24 =
      cfg.START_DUTY_HOUR + cfg.PRE_TRIP_INSPECTION_TIME :=
    pymod_eq_self (by linarith [hcfg.start_nonneg, hcfg.pretrip_pos]) hSPT
  have hmain : generate_steps cfg (stepsGenerator_init cfg 0) 0 0 fuel =
      some ((if 0 < cfg.START_DUTY_HOUR then
          [create_segment Status.OFF_DUTY cfg.START_DUTY_HOUR Label.offDuty 0 0 0]
        else []) ++
        [create_segment Status.ON_DUTY cfg.PRE_TRIP_INSPECTION_TIME Label.preTrip
           cfg.START_DUTY_HOUR cfg.START_DUTY_HOUR 0,
         create_segment Status.ON_DUTY cfg.DROPOFF_TIME Label.dropOff
           (cfg.START_DUTY_HOUR + cfg.PRE_TRIP_INSPECTION_TIME)
           (cfg.START_DUTY_HOUR + cfg.PRE_TRIP_INSPECTION_TIME) 0,
         create_segment Status.OFF_DUTY
           (24 - pymod (cfg.START_DUTY_HOUR + cfg.PRE_TRIP_INSPECTION_TIME +
             cfg.DROPOFF_TIME) 24) Label.offDuty
           (pymod (cfg.START_DUTY_HOUR + cfg.PRE_TRIP_INSPECTION_TIME +
             cfg.DROPOFF_TIME) 24)
           (cfg.START_DUTY_HOUR + cfg.PRE_TRIP_INSPECTION_TIME + cfg.DROPOFF_TIME) 0],
        ⟨cfg.MAX_CYCLE_HOURS - cfg.PRE_TRIP_INSPECTION_TIME⟩) := by
    unfold generate_steps
    rw [c9_init_state hcfg hfit]
    rw [loopGo_exit (by norm_num) fuel]
    show some ((final_phase cfg _).steps, _) = _
    unfold final_phase
    rw [emit_nosplit Status.ON_DUTY Label.dropOff _ 0 (by
      show ¬ 24 < pymod (cfg.START_DUTY_HOUR + cfg.PRE_TRIP_INSPECTION_TIME) 24 +
        cfg.DROPOFF_TIME
      rw [pmSPT]
      linarith)]
    simp only [create_end_hour]
    have hE0 : 0 ≤ pymod (cfg.START_DUTY_HOUR + cfg.PRE_TRIP_INSPECTION_TIME +
        cfg.DROPOFF_TIME) 24 := pymod_nonneg h24 _
    have hE24 : pymod (cfg.START_DUTY_HOUR + cfg.PRE_TRIP_INSPECTION_TIME +
        cfg.DROPOFF_TIME) 24 < 24 := pymod_lt h24 _
    have hpmE : pymod (pymod (cfg.START_DUTY_HOUR + cfg.PRE_TRIP_INSPECTION_TIME +
        cfg.DROPOFF_TIME) 24) 24 = pymod (cfg.START_DUTY_HOUR +
        cfg.PRE_TRIP_INSPECTION_TIME + cfg.DROPOFF_TIME) 24 :=
      pymod_eq_self hE0 hE24
    rw [hpmE]
    rw [if_pos (by linarith)]
    simp only [List.append_assoc, List.cons_append, List.nil_append]
  refine ⟨hmain, ?_⟩
  intro steps g' h'
  rw [hmain] at h'
  simp only [Option.some.injEq, Prod.mk.injEq] at h'
  obtain ⟨hsteps, _⟩ := h'
  subst hsteps
  constructor
  · rw [drivingMilesSum_append]
    split
    · simp [drivingMilesSum, create_segment]
    · simp [drivingMilesSum, create_segment]
  · intro seg hs
    rcases List.mem_append.1 hs with h1 | h1
    · split at h1
      · rw [List.mem_singleton] at h1
        subst h1
        refine ⟨by simp [create_segment], by simp [create_segment], ?_, ?_, ?_, ?_⟩ <;>
          simp [create_segment]
      · exact absurd h1 (List.not_mem_nil seg)
    · simp only [List.mem_cons, List.not_mem_nil, or_false] at h1
      rcases h1 with h1 | h1 | h1 <;> subst h1 <;>
        refine ⟨by simp [create_segment], by simp [create_segment], ?_, ?_, ?_, ?_⟩ <;>
          simp [create_segment]

/-- Witness for C9 at the test configuration. -/
theorem c9_witness :
    generate_steps cfgT (stepsGenerator_init cfgT 0) 0 0 1 =
      some ((if 0 < cfgT.START_DUTY_HOUR then
          [create_segment Status.OFF_DUTY cfgT.START_DUTY_HOUR Label.offDuty 0 0 0]
        else []) ++
        [create_segment Status.ON_DUTY cfgT.PRE_TRIP_INSPECTION_TIME Label.preTrip
           cfgT.START_DUTY_HOUR cfgT.START_DUTY_HOUR 0,
         create_segment Status.ON_DUTY cfgT.DROPOFF_TIME Label.dropOff
           (cfgT.START_DUTY_HOUR + cfgT.PRE_TRIP_INSPECTION_TIME)
           (cfgT.START_DUTY_HOUR + cfgT.PRE_TRIP_INSPECTION_TIME) 0,
         create_segment Status.OFF_DUTY
           (24 - pymod (cfgT.START_DUTY_HOUR + cfgT.PRE_TRIP_INSPECTION_TIME +
             cfgT.DROPOFF_TIME) 24) Label.offDuty
           (pymod (cfgT.START_DUTY_HOUR + cfgT.PRE_TRIP_INSPECTION_TIME +
             cfgT.DROPOFF_TIME) 24)
           (cfgT.START_DUTY_HOUR + cfgT.PRE_TRIP_INSPECTION_TIME +
             cfgT.DROPOFF_TIME) 0],
        ⟨cfgT.MAX_CYCLE_HOURS - cfgT.PRE_TRIP_INSPECTION_TIME⟩) :=
  (c9_zero_distance 1 cfgT_ok (by norm_num [cfgT])).1

/-! ### C6: no driving on a negative cycle balance -/

theorem emit_mem {status : Status} {dur : ℚ} {lbl : Label} {sh miles : ℚ}
    {s : LoopState} {seg : Segment}
    (h : seg ∈ (emit status dur lbl sh miles s).steps) :
    seg ∈ s.steps ∨ (seg.status = status ∧ seg.label = lbl) := by
  rw [emit_steps_eq] at h
  rcases List.mem_append.1 h with h1 | h1
  · exact Or.inl h1
  · exact Or.inr (manage_mem h1)

/-- No DRIVING segment occurs in the output of the pre-loop initialization. -/
theorem init_state_no_driving (cfg : Config) (g : StepsGenerator) (p d : ℚ) :
    ∀ seg ∈ (init_state cfg g p d).steps, seg.status ≠ Status.DRIVING := by
  intro seg hs
  have hs1 : seg ∈ (emit Status.ON_DUTY cfg.PRE_TRIP_INSPECTION_TIME Label.preTrip
      (start_filler_step (base_state cfg g p d)).current_hour 0
      (start_filler_step (base_state cfg g p d))).steps := hs
  rcases emit_mem hs1 with h1 | h1
  · unfold start_filler_step at h1
    by_cases hS : 0 < (base_state cfg g p d).current_hour
    · rw [if_pos hS] at h1
      rcases emit_mem h1 with h2 | h2
      · exact absurd h2 (List.not_mem_nil seg)
      · rw [h2.1]
        intro hc
        cases hc
    · rw [if_neg hS] at h1
      exact absurd h1 (List.not_mem_nil seg)
  · rw [h1.1]
    intro hc
    cases hc

theorem start_filler_cycle (s : LoopState) :
    (start_filler_step s).cycle_remaining = s.cycle_remaining := by
  unfold start_filler_step
  split <;> rfl

theorem init_state_cycle (cfg : Config) (g : StepsGenerator) (p d : ℚ) :
    (init_state cfg g p d).cycle_remaining =
      g.cycle_remaining - cfg.PRE_TRIP_INSPECTION_TIME := by
  show (start_filler_step (base_state cfg g p d)).cycle_remaining -
    cfg.PRE_TRIP_INSPECTION_TIME = _
  rw [start_filler_cycle]
  rfl

/-- The disjunctive invariant behind C6: either nothing has driven yet and the
cycle balance is non-positive, or a cycle-restart segment already appears in
the output before any DRIVING segment. -/
def RestartFirst (s : LoopState) : Prop :=
  ((∀ seg ∈ s.steps, seg.status ≠ Status.DRIVING) ∧ s.cycle_remaining ≤ 0) ∨
  (∃ pre r post, s.steps = pre ++ r :: post ∧ r.label = Label.cycleRestart ∧
    r.status = Status.OFF_DUTY ∧ ∀ x ∈ pre, x.status ≠ Status.DRIVING)

theorem restartFirst_append {s s' : LoopState} {new : List Segment}
    (hsteps : s'.steps = s.steps ++ new)
    (h : ∃ pre r post, s.steps = pre ++ r :: post ∧ r.label = Label.cycleRestart ∧
      r.status = Status.OFF_DUTY ∧ ∀ x ∈ pre, x.status ≠ Status.DRIVING) :
    ∃ pre r post, s'.steps = pre ++ r :: post ∧ r.label = Label.cycleRestart ∧
      r.status = Status.OFF_DUTY ∧ ∀ x ∈ pre, x.status ≠ Status.DRIVING := by
  obtain ⟨pre, r, post, heq, h1, h2, h3⟩ := h
  exact ⟨pre, r, post ++ new, by rw [hsteps, heq]; simp, h1, h2, h3⟩

theorem drive_steps_mono (cfg : Config) (s : LoopState) :
    ∃ new, (drive_phase cfg s).steps = s.steps ++ new := by
  by_cases ht : 0 < compute_time_to_drive cfg s
  · rw [drive_phase_fire ht]
    exact ⟨_, emit_steps_eq _ _ _ _ _ _⟩
  · rw [drive_phase_skip ht]
    exact ⟨[], (List.append_nil _).symm⟩

theorem pickup_steps_mono (cfg : Config) (s : LoopState) :
    ∃ new, (pickup_phase cfg s).steps = s.steps ++ new := by
  by_cases hp : ¬ s.pickup_done ∧ s.dist_to_pickup_miles ≤ 0
  · rw [pickup_phase_fire hp]
    exact ⟨_, emit_steps_eq _ _ _ _ _ _⟩
  · rw [pickup_phase_skip hp]
    exact ⟨[], (List.append_nil _).symm⟩

theorem stop_steps_mono (cfg : Config) (s : LoopState) :
    ∃ new, (stop_phase cfg s).steps = s.steps ++ new := by
  by_cases hf : cfg.MILES_BEFORE_FUEL ≤ s.miles_since_fuel
  · rw [stop_phase_fuel hf]
    exact ⟨_, emit_steps_eq _ _ _ _ _ _⟩
  · by_cases hb : cfg.BREAK_AFTER ≤ s.drive_accumulated_since_last_break
    · rw [stop_phase_break hf hb]
      exact ⟨_, emit_steps_eq _ _ _ _ _ _⟩
    · by_cases hs : cfg.MAX_DRIVING_PER_DAY ≤ s.current_drive_accumulated ∨
        cfg.MAX_DRIVE_WINDOW ≤ s.current_drive_window
      · rw [stop_phase_sleeper hf hb hs]
        exact ⟨_, emit_steps_eq _ _ _ _ _ _⟩
      · rw [stop_phase_skip hf hb hs]
        exact ⟨[], (List.append_nil _).symm⟩

theorem final_steps_mono (cfg : Config) (s : LoopState) :
    ∃ new, (final_phase cfg s).steps = s.steps ++ new := by
  unfold final_phase
  set s1 := emit Status.ON_DUTY cfg.DROPOFF_TIME Label.dropOff s.current_hour 0 s
    with hs1
  have h1 : s1.steps = s.steps ++ _ := emit_steps_eq _ _ _ _ _ _
  by_cases hl : 0 < 24 - pymod s1.current_hour 24
  · rw [if_pos hl]
    refine ⟨((manage_create_segment Status.ON_DUTY cfg.DROPOFF_TIME Label.dropOff
        s.current_hour s.total_elapsed 0).1 ++
        [(manage_create_segment Status.ON_DUTY cfg.DROPOFF_TIME Label.dropOff
          s.current_hour s.total_elapsed 0).2]) ++
      [create_segment Status.OFF_DUTY (24 - pymod s1.current_hour 24)
        Label.offDuty s1.current_hour s1.total_elapsed 0], ?_⟩
    show s1.steps ++ [create_segment Status.OFF_DUTY (24 - pymod s1.current_hour 24)
      Label.offDuty s1.current_hour s1.total_elapsed 0] = s.steps ++ _
    rw [h1, List.append_assoc]
  · rw [if_neg hl]
    exact ⟨_, h1⟩

theorem restartFirst_body {cfg : Config} {s : LoopState}
    (h : RestartFirst s) : RestartFirst (loop_body cfg s) := by
  unfold loop_body
  rcases h with ⟨hnd, hcyc⟩ | h2
  · -- the restart fires first and establishes the second disjunct
    have hcase2 : ∃ pre r post, (restart_phase cfg s).steps = pre ++ r :: post ∧
        r.label = Label.cycleRestart ∧ r.status = Status.OFF_DUTY ∧
        ∀ x ∈ pre, x.status ≠ Status.DRIVING := by
      rw [restart_phase_fire hcyc]
      have hne : ((manage_create_segment Status.OFF_DUTY cfg.REST_AFTER_CYCLE
          Label.cycleRestart s.current_hour s.total_elapsed 0).1 ++
          [(manage_create_segment Status.OFF_DUTY cfg.REST_AFTER_CYCLE
            Label.cycleRestart s.current_hour s.total_elapsed 0).2]) ≠ [] := by
        simp
      rcases List.exists_cons_of_ne_nil hne with ⟨r, rest, hr⟩
      have hrmem : r ∈ (manage_create_segment Status.OFF_DUTY cfg.REST_AFTER_CYCLE
          Label.cycleRestart s.current_hour s.total_elapsed 0).1 ++
          [(manage_create_segment Status.OFF_DUTY cfg.REST_AFTER_CYCLE
            Label.cycleRestart s.current_hour s.total_elapsed 0).2] := by
        rw [hr]
        simp
      obtain ⟨hst, hlbl⟩ := manage_mem hrmem
      refine ⟨s.steps, r, rest, ?_, hlbl, hst, hnd⟩
      show (emit Status.OFF_DUTY cfg.REST_AFTER_CYCLE Label.cycleRestart
        s.current_hour 0 s).steps = _
      rw [emit_steps_eq, hr]
    obtain ⟨new1, hm1⟩ := drive_steps_mono cfg (restart_phase cfg s)
    obtain ⟨new2, hm2⟩ := pickup_steps_mono cfg (drive_phase cfg (restart_phase cfg s))
    obtain ⟨new3, hm3⟩ := stop_steps_mono cfg
      (pickup_phase cfg (drive_phase cfg (restart_phase cfg s)))
    exact Or.inr (restartFirst_append hm3 (restartFirst_append hm2
      (restartFirst_append hm1 hcase2)))
  · -- the restart segment is already in the output
    obtain ⟨newr, hmr⟩ : ∃ new, (restart_phase cfg s).steps = s.steps ++ new := by
      by_cases hc : s.cycle_remaining ≤ 0
      · rw [restart_phase_fire hc]
        exact ⟨_, emit_steps_eq _ _ _ _ _ _⟩
      · rw [restart_phase_skip hc]
        exact ⟨[], (List.append_nil _).symm⟩
    obtain ⟨new1, hm1⟩ := drive_steps_mono cfg (restart_phase cfg s)
    obtain ⟨new2, hm2⟩ := pickup_steps_mono cfg (drive_phase cfg (restart_phase cfg s))
    obtain ⟨new3, hm3⟩ := stop_steps_mono cfg
      (pickup_phase cfg (drive_phase cfg (restart_phase cfg s)))
    exact Or.inr (restartFirst_append hm3 (restartFirst_append hm2
      (restartFirst_append hm1 (restartFirst_append hmr h2))))

theorem loopGo_restartFirst {cfg : Config} :
    ∀ (n : ℕ) (s s' : LoopState), RestartFirst s → loopGo cfg n s = some s' →
      RestartFirst s' := by
  intro n
  induction n with
  | zero =>
    intro s s' h hgo
    unfold loopGo at hgo
    by_cases hr : 0 < s.remaining_dist
    · rw [if_pos hr] at hgo
      cases hgo
    · rw [if_neg hr] at hgo
      cases hgo
      exact h
  | succ n ih =>
    intro s s' h hgo
    unfold loopGo at hgo
    by_cases hr : 0 < s.remaining_dist
    · rw [if_pos hr] at hgo
      exact ih _ _ (restartFirst_body h) hgo
    · rw [if_neg hr] at hgo
      cases hgo
      exact h

theorem preceded_of_decomp {preQ : List Segment} :
    ∀ {l : List Segment} {postQ : List Segment} {r : Segment},
      l = preQ ++ r :: postQ → (∀ x ∈ preQ, x.status ≠ Status.DRIVING) →
      r.status ≠ Status.DRIVING →
      ∀ pre seg post, l = pre ++ seg :: post → seg.status = Status.DRIVING →
        r ∈ pre := by
  induction preQ with
  | nil =>
    intro l postQ r hQ hpreQ hr pre seg post hdec hdrv
    subst hQ
    rw [List.nil_append] at hdec
    cases pre with
    | nil =>
      rw [List.nil_append, List.cons.injEq] at hdec
      rw [← hdec.1] at hdrv
      exact absurd hdrv hr
    | cons p pre₂ =>
      rw [List.cons_append, List.cons.injEq] at hdec
      simp [hdec.1]
  | cons q preQ₂ ih =>
    intro l postQ r hQ hpreQ hr pre seg post hdec hdrv
    subst hQ
    rw [List.cons_append] at hdec
    cases pre with
    | nil =>
      rw [List.nil_append, List.cons.injEq] at hdec
      rw [← hdec.1] at hdrv
      exact absurd hdrv (hpreQ q (by simp))
    | cons p pre₂ =>
      rw [List.cons_append, List.cons.injEq] at hdec
      have hr2 : r ∈ pre₂ :=
        ih rfl (fun x hx => hpreQ x (by simp [hx])) hr pre₂ seg post hdec.2 hdrv
      simp [hr2]

/-- C6: (i) at the moment the driving quantum is computed — immediately after
the cycle-restart check — `cycle_remaining` is strictly positive and the
quantum is bounded by it; (ii) when the generator is constructed with
`cycle_used_hours = MAX_CYCLE_HOURS`, every DRIVING segment of the output is
preceded by an OFF_DUTY cycle-restart segment. -/
theorem c6_no_drive_on_negative_cycle :
    (∀ (cfg : Config) (s : LoopState), 0 < cfg.MAX_CYCLE_HOURS →
      0 < (restart_phase cfg s).cycle_remaining ∧
      compute_time_to_drive cfg (restart_phase cfg s) ≤
        (restart_phase cfg s).cycle_remaining) ∧
    (∀ (cfg : Config) (p d : ℚ) (fuel : ℕ) (steps : List Segment)
      (g' : StepsGenerator), CfgOK cfg →
      generate_steps cfg (stepsGenerator_init cfg cfg.MAX_CYCLE_HOURS) p d fuel =
        some (steps, g') →
      ∀ pre seg post, steps = pre ++ seg :: post → seg.status = Status.DRIVING →
        ∃ r ∈ pre, r.label = Label.cycleRestart) := by
  constructor
  · intro cfg s hM
    constructor
    · by_cases hc : s.cycle_remaining ≤ 0
      · rw [restart_phase_fire hc]
        exact hM
      · rw [restart_phase_skip hc]
        exact lt_of_not_le hc
    · exact ttd_le_cyc cfg _
  · intro cfg p d fuel steps g' hcfg h
    obtain ⟨s', hgo, hsteps, hg⟩ := generate_steps_some h
    have hinit : RestartFirst (init_state cfg
        (stepsGenerator_init cfg cfg.MAX_CYCLE_HOURS) p d) := by
      left
      refine ⟨init_state_no_driving cfg _ p d, ?_⟩
      rw [init_state_cycle]
      show cfg.MAX_CYCLE_HOURS - cfg.MAX_CYCLE_HOURS - cfg.PRE_TRIP_INSPECTION_TIME ≤ 0
      have := hcfg.pretrip_pos
      linarith
    have hQ := loopGo_restartFirst fuel _ s' hinit hgo
    intro pre seg post hdec hdrv
    obtain ⟨newF, hmF⟩ := final_steps_mono cfg s'
    rcases hQ with ⟨hnd, _⟩ | ⟨preQ, r, postQ, heq, hlbl, hst, hpreQ⟩
    · -- no driving in s'.steps; a DRIVING seg in final steps would be in newF,
      -- but final_phase only appends ON_DUTY and OFF_DUTY segments
      exfalso
      have hseg_mem : seg ∈ steps := by
        rw [hdec]
        simp
      rw [hsteps] at hseg_mem
      -- membership in final_phase output
      unfold final_phase at hseg_mem
      set s1 := emit Status.ON_DUTY cfg.DROPOFF_TIME Label.dropOff s'.current_hour 0 s'
        with hs1
      by_cases hl : 0 < 24 - pymod s1.current_hour 24
      · rw [if_pos hl] at hseg_mem
        have hseg_mem2 : seg ∈ s1.steps ++ [create_segment Status.OFF_DUTY
            (24 - pymod s1.current_hour 24) Label.offDuty s1.current_hour
            s1.total_elapsed 0] := hseg_mem
        rcases List.mem_append.1 hseg_mem2 with h2 | h2
        · rcases emit_mem h2 with h3 | h3
          · exact hnd seg h3 hdrv
          · rw [h3.1] at hdrv
            cases hdrv
        · rw [List.mem_singleton] at h2
          rw [h2] at hdrv
          cases hdrv
      · rw [if_neg hl] at hseg_mem
        rcases emit_mem hseg_mem with h3 | h3
        · exact hnd seg h3 hdrv
        · rw [h3.1] at hdrv
          cases hdrv
    · -- the restart segment precedes every DRIVING segment
      have hfinal_dec : steps = preQ ++ r :: (postQ ++ newF) := by
        rw [hsteps, hmF, heq]
        simp
      have hrnd : r.status ≠ Status.DRIVING := by
        rw [hst]
        intro hc
        cases hc
      have := preceded_of_decomp hfinal_dec hpreQ hrnd pre seg post hdec hdrv
      exact ⟨r, this, hlbl⟩

/-- Witness for C6: test configuration with the cycle fully used. -/
theorem c6_witness :
    (0 < (restart_phase cfgT (base_state cfgT (stepsGenerator_init cfgT 70)
        mT mT)).cycle_remaining ∧
      compute_time_to_drive cfgT (restart_phase cfgT (base_state cfgT
        (stepsGenerator_init cfgT 70) mT mT)) ≤
        (restart_phase cfgT (base_state cfgT (stepsGenerator_init cfgT 70)
          mT mT)).cycle_remaining) ∧
    (∃ steps g', generate_steps cfgT (stepsGenerator_init cfgT
        cfgT.MAX_CYCLE_HOURS) mT mT 8 = some (steps, g') ∧
      ∀ pre seg post, steps = pre ++ seg :: post → seg.status = Status.DRIVING →
        ∃ r ∈ pre, r.label = Label.cycleRestart) := by
  constructor
  · exact c6_no_drive_on_negative_cycle.1 cfgT _ (by norm_num [cfgT])
  · cases hgen : generate_steps cfgT (stepsGenerator_init cfgT
        cfgT.MAX_CYCLE_HOURS) mT mT 8 with
    | none =>
      exact absurd hgen (by with_unfolding_all decide)
    | some r =>
      obtain ⟨stepsr, gr⟩ := r
      refine ⟨stepsr, gr, rfl, ?_⟩
      exact c6_no_drive_on_negative_cycle.2 cfgT mT mT 8 stepsr gr cfgT_ok hgen

/-! ### C1: purity of `generate` -/

/-- C1: the simulator state entering a call is determined by
`(cycle_used_hours, configuration)` (`__init__` computes
`MAX_CYCLE_HOURS - cycle_used_hrs` and the call reads nothing else from the
generator); two invocations of `generate_steps` with identical distances,
identical `cycle_used_hours` and identical configuration return identical
results; and the result depends on the generator object only through
`cycle_remaining`, so no other state can flow from one invocation to the
next. -/
theorem c1_generate_pure :
    (∀ (cfg : Config) (cu : ℚ),
      (stepsGenerator_init cfg cu).cycle_remaining = cfg.MAX_CYCLE_HOURS - cu) ∧
    (∀ (cfg : Config) (cu₁ cu₂ p₁ p₂ d₁ d₂ : ℚ) (fuel : ℕ),
      cu₁ = cu₂ → p₁ = p₂ → d₁ = d₂ →
      generate_steps cfg (stepsGenerator_init cfg cu₁) p₁ d₁ fuel =
        generate_steps cfg (stepsGenerator_init cfg cu₂) p₂ d₂ fuel) ∧
    (∀ (cfg : Config) (cu p d : ℚ) (fuel : ℕ) (gprior : StepsGenerator),
      gprior.cycle_remaining = (stepsGenerator_init cfg cu).cycle_remaining →
      generate_steps cfg gprior p d fuel =
        generate_steps cfg (stepsGenerator_init cfg cu) p d fuel) := by
  refine ⟨fun cfg cu => rfl, ?_, ?_⟩
  · intro cfg cu₁ cu₂ p₁ p₂ d₁ d₂ fuel h1 h2 h3
    rw [h1, h2, h3]
  · intro cfg cu p d fuel gprior hg
    have : gprior = stepsGenerator_init cfg cu := by
      cases gprior
      cases hg
      rfl
    rw [this]

/-- Witness for C1 at concrete inputs. -/
theorem c1_witness :
    (stepsGenerator_init cfgT 0).cycle_remaining = cfgT.MAX_CYCLE_HOURS - 0 ∧
    generate_steps cfgT (stepsGenerator_init cfgT 0) mT mT 6 =
      generate_steps cfgT (stepsGenerator_init cfgT 0) mT mT 6 ∧
    generate_steps cfgT ⟨70⟩ mT mT 6 =
      generate_steps cfgT (stepsGenerator_init cfgT 0) mT mT 6 :=
  ⟨c1_generate_pure.1 cfgT 0,
   c1_generate_pure.2.1 cfgT 0 0 mT mT mT mT 6 rfl rfl rfl,
   c1_generate_pure.2.2 cfgT 0 mT mT 6 ⟨70⟩ (by
     show (70:ℚ) = cfgT.MAX_CYCLE_HOURS - 0
     norm_num [cfgT])⟩

/-! ### C4: the break budget entering the five-way minimum -/

/-- The loop state after `n` guarded iterations of the main loop
(`loop_body` applies while `remaining_dist > 0`, as in `loopGo`). -/
def loopIter (cfg : Config) : ℕ → LoopState → LoopState
  | 0, s => s
  | n + 1, s => loopIter cfg n (if 0 < s.remaining_dist then loop_body cfg s else s)

/-- Configuration used for the C4 counterexample: valid, positive constants,
with a small fueling interval so that a fueling stop can mask a due break. -/
def cfgX : Config :=
  { MAX_CYCLE_HOURS := 1000
    MAX_DRIVING_PER_DAY := 100
    MAX_DRIVE_WINDOW := 100
    BREAK_AFTER := 8
    BREAK_DURATION := 1/2
    AVG_SPEED_MPH := 60
    PICKUP_TIME := 1
    DROPOFF_TIME := 1/2
    PRE_TRIP_INSPECTION_TIME := 1/4
    MILES_BEFORE_FUEL := 100
    FUELING_DURATION := 1/2
    SLEEPER_BREAK_HOURS := 10
    REST_AFTER_CYCLE := 10
    START_DUTY_HOUR := 0 }

/-- Counterexample to C4 as stated: in the third main-loop iteration of a run
of `generate_steps cfgX` on a pickup distance of 0 meters and a drop-off
distance of 2000000 meters, the loop is still running, the break budget
entering the five-way minimum is NOT `BREAK_AFTER` minus the hours driven
since the last break (8 hours were driven since the last break, yet the budget
is the full 8, not 0, because the code computes `BREAK_AFTER - (dasb %
BREAK_AFTER)` and a fueling stop masked the due break), and the subsequent
iteration pushes hours-driven-since-last-break to 16, beyond the 8-hour break
interval. -/
theorem c4_counterexample :
    (0 < (loopIter cfgX 2 (init_state cfgX (stepsGenerator_init cfgX 0) 0
      2000000)).remaining_dist) ∧
    leftBreakBudget cfgX (restart_phase cfgX (loopIter cfgX 2 (init_state cfgX
      (stepsGenerator_init cfgX 0) 0 2000000))) ≠
      cfgX.BREAK_AFTER - (restart_phase cfgX (loopIter cfgX 2 (init_state cfgX
        (stepsGenerator_init cfgX 0) 0 2000000))).drive_accumulated_since_last_break ∧
    cfgX.BREAK_AFTER < (loopIter cfgX 3 (init_state cfgX (stepsGenerator_init cfgX 0)
      0 2000000)).drive_accumulated_since_last_break := by
  with_unfolding_all decide

/-- C4 amended: the break budget entering the five-way minimum equals
`BREAK_AFTER - (dasb mod BREAK_AFTER)` — the full interval when no hours have
been driven since the last break — and consequently the minimum never
allocates driving time that pushes hours-driven-since-last-break beyond the
*next multiple* of the break interval (it can exceed the interval itself when
a fueling stop has deferred a due break). -/
theorem c4_break_budget (cfg : Config) (s : LoopState)
    (hBA : 0 < cfg.BREAK_AFTER)
    (hdasb : 0 ≤ s.drive_accumulated_since_last_break) :
    (s.drive_accumulated_since_last_break = 0 →
      leftBreakBudget cfg s = cfg.BREAK_AFTER) ∧
    leftBreakBudget cfg s = cfg.BREAK_AFTER -
      (if s.drive_accumulated_since_last_break ≠ 0 then
        pymod s.drive_accumulated_since_last_break cfg.BREAK_AFTER else 0) ∧
    (drive_phase cfg s).drive_accumulated_since_last_break ≤
      cfg.BREAK_AFTER *
        ((⌊s.drive_accumulated_since_last_break / cfg.BREAK_AFTER⌋ : ℚ) + 1) := by
  refine ⟨?_, rfl, ?_⟩
  · intro h0
    unfold leftBreakBudget
    rw [if_neg (by simp [h0])]
    ring
  · have hpm_lt : pymod s.drive_accumulated_since_last_break cfg.BREAK_AFTER <
        cfg.BREAK_AFTER := pymod_lt hBA _
    have hpm_def : pymod s.drive_accumulated_since_last_break cfg.BREAK_AFTER =
        s.drive_accumulated_since_last_break - cfg.BREAK_AFTER *
          (⌊s.drive_accumulated_since_last_break / cfg.BREAK_AFTER⌋ : ℚ) := rfl
    have hfl0 : 0 ≤ (⌊s.drive_accumulated_since_last_break / cfg.BREAK_AFTER⌋ : ℚ) := by
      have : (0:ℤ) ≤ ⌊s.drive_accumulated_since_last_break / cfg.BREAK_AFTER⌋ :=
        Int.floor_nonneg.2 (div_nonneg hdasb hBA.le)
      exact_mod_cast this
    by_cases ht : 0 < compute_time_to_drive cfg s
    · rw [drive_phase_fire ht]
      show s.drive_accumulated_since_last_break + compute_time_to_drive cfg s ≤ _
      have hbudget := ttd_le_breakBudget cfg s
      unfold leftBreakBudget at hbudget
      by_cases h0 : s.drive_accumulated_since_last_break ≠ 0
      · rw [if_pos h0] at hbudget
        rw [hpm_def] at hbudget
        nlinarith
      · rw [if_neg h0] at hbudget
        push_neg at h0
        rw [h0]
        have hz : (⌊(0:ℚ) / cfg.BREAK_AFTER⌋ : ℚ) = 0 := by
          norm_num
        rw [hz]
        nlinarith
    · rw [drive_phase_skip ht]
      show s.drive_accumulated_since_last_break ≤ _
      rw [hpm_def] at hpm_lt
      nlinarith

/-- Witness for the amended C4 at a concrete state. -/
theorem c4_witness :
    ((base_state cfgT (stepsGenerator_init cfgT 0) 0 0).drive_accumulated_since_last_break
      = 0 →
      leftBreakBudget cfgT (base_state cfgT (stepsGenerator_init cfgT 0) 0 0) =
        cfgT.BREAK_AFTER) ∧
    leftBreakBudget cfgT (base_state cfgT (stepsGenerator_init cfgT 0) 0 0) =
      cfgT.BREAK_AFTER -
      (if (base_state cfgT (stepsGenerator_init cfgT 0) 0
          0).drive_accumulated_since_last_break ≠ 0 then
        pymod (base_state cfgT (stepsGenerator_init cfgT 0) 0
          0).drive_accumulated_since_last_break cfgT.BREAK_AFTER else 0) ∧
    (drive_phase cfgT (base_state cfgT (stepsGenerator_init cfgT 0) 0
      0)).drive_accumulated_since_last_break ≤
      cfgT.BREAK_AFTER *
        ((⌊(base_state cfgT (stepsGenerator_init cfgT 0) 0
          0).drive_accumulated_since_last_break / cfgT.BREAK_AFTER⌋ : ℚ) + 1) :=
  c4_break_budget cfgT (base_state cfgT (stepsGenerator_init cfgT 0) 0 0)
    (by norm_num [cfgT]) (le_refl 0)

/-! ### C5: driving accumulation between resets -/

/-- Configuration used for the C5 counterexample: valid, positive constants,
with a cycle small enough that a cycle restart occurs between sleeper
resets. -/
def cfgY : Config :=
  { MAX_CYCLE_HOURS := 70
    MAX_DRIVING_PER_DAY := 11
    MAX_DRIVE_WINDOW := 100
    BREAK_AFTER := 100
    BREAK_DURATION := 1/2
    AVG_SPEED_MPH := 60
    PICKUP_TIME := 1
    DROPOFF_TIME := 1/2
    PRE_TRIP_INSPECTION_TIME := 1/4
    MILES_BEFORE_FUEL := 1000000
    FUELING_DURATION := 1/2
    SLEEPER_BREAK_HOURS := 10
    REST_AFTER_CYCLE := 10
    START_DUTY_HOUR := 0 }

/-- Counterexample to C5 as stated: with `cfgY`, 64 cycle hours already used,
pickup distance 0 and drop-off distance 2000000 meters, the schedule before
its first SLEEPER segment (its first six segments) contains no SLEEPER yet
accumulates 15.75 hours of driving, exceeding `MAX_DRIVING_PER_DAY = 11` —
a cycle restart (not a sleeper) reset the daily counter in between. -/
theorem c5_counterexample :
    (generate_steps cfgY (stepsGenerator_init cfgY 64) 0 2000000 12).isSome = true ∧
    ((((generate_steps cfgY (stepsGenerator_init cfgY 64) 0 2000000 12).map
        Prod.fst).getD []).take 6).all
      (fun seg => !(seg.status == Status.SLEEPER)) = true ∧
    cfgY.MAX_DRIVING_PER_DAY <
      drivingDurSum ((((generate_steps cfgY (stepsGenerator_init cfgY 64) 0
        2000000 12).map Prod.fst).getD []).take 6) := by
  refine ⟨by with_unfolding_all decide, by with_unfolding_all decide, ?_⟩
  with_unfolding_all decide

/-- Driving bound over reset-free contiguous sublists extends through the
closing drop-off and filler segments. -/
theorem final_phase_daily {cfg : Config} {total : ℚ} {s : LoopState}
    (hcfg : CfgOK cfg) (hinv : Inv cfg total s) :
    ∀ pre mid post, (final_phase cfg s).steps = pre ++ mid ++ post →
      (∀ x ∈ mid, ¬ isReset x) → drivingDurSum mid ≤ cfg.MAX_DRIVING_PER_DAY := by
  have hdaily1 := daily_emit_add hinv.daily Status.ON_DUTY cfg.DROPOFF_TIME
    Label.dropOff s.current_hour 0 hcfg.dropoff_pos hinv.a_nonneg
    (by simpa using hinv.a_le)
  have hG1 := hdaily1.1
  have hS1 : ∀ pre mid, (emit Status.ON_DUTY cfg.DROPOFF_TIME Label.dropOff
      s.current_hour 0 s).steps = pre ++ mid → (∀ x ∈ mid, ¬ isReset x) →
      drivingDurSum mid ≤ s.current_drive_accumulated := by
    intro pre mid heq hfree
    have := hdaily1.2 pre mid heq hfree
    simpa using this
  unfold final_phase
  set s1 := emit Status.ON_DUTY cfg.DROPOFF_TIME Label.dropOff s.current_hour 0 s
    with hs1
  by_cases hl : 0 < 24 - pymod s1.current_hour 24
  · rw [if_pos hl]
    intro pre mid post heq hfree
    have hext := daily_extend_add hG1 hS1
      (by simp [drivingDurSum, create_segment] :
        drivingDurSum [create_segment Status.OFF_DUTY (24 - pymod s1.current_hour 24)
          Label.offDuty s1.current_hour s1.total_elapsed 0] = 0)
      (by
        intro seg hs
        rw [List.mem_singleton] at hs
        subst hs
        exact hl.le)
      hinv.a_nonneg (by simpa using hinv.a_le)
    exact hext.1 pre mid post heq hfree
  · rw [if_neg hl]
    intro pre mid post heq hfree
    exact hG1 pre mid post heq hfree

/-- C5 amended: for every terminating run, every contiguous sublist of the
output containing no *reset* segment — neither a SLEEPER berth nor an OFF_DUTY
cycle-restart — has total DRIVING duration at most `MAX_DRIVING_PER_DAY`.
(Measured between SLEEPER segments alone the bound can fail, because a cycle
restart also resets the daily-driving counter without emitting a SLEEPER.) -/
theorem c5_daily_cap_between_resets {cfg : Config} {cu p d : ℚ} {fuel : ℕ}
    {steps : List Segment} {g' : StepsGenerator}
    (hcfg : CfgOK cfg) (hp : 0 ≤ p) (hd : 0 ≤ d) (hcu : 0 ≤ cu)
    (h : generate_steps cfg (stepsGenerator_init cfg cu) p d fuel = some (steps, g')) :
    ∀ pre mid post, steps = pre ++ mid ++ post → (∀ x ∈ mid, ¬ isReset x) →
      drivingDurSum mid ≤ cfg.MAX_DRIVING_PER_DAY := by
  obtain ⟨s', hgo, hsteps, hg⟩ := generate_steps_some h
  have hinv0 := init_inv hcfg hp hd (init_cycle_le hcu)
  obtain ⟨hinv, hR⟩ := loopGo_inv hcfg fuel _ s' hinv0 hgo
  intro pre mid post heq hfree
  exact final_phase_daily hcfg hinv pre mid post (by rw [← hsteps, heq]) hfree

/-- Witness for the amended C5 at a concrete trip. -/
theorem c5_witness : ∃ steps g',
    generate_steps cfgT (stepsGenerator_init cfgT 0) mT mT 6 = some (steps, g') ∧
    ∀ pre mid post, steps = pre ++ mid ++ post → (∀ x ∈ mid, ¬ isReset x) →
      drivingDurSum mid ≤ cfgT.MAX_DRIVING_PER_DAY := by
  cases hgen : generate_steps cfgT (stepsGenerator_init cfgT 0) mT mT 6 with
  | none =>
    exact absurd hgen (by with_unfolding_all decide)
  | some r =>
    obtain ⟨stepsr, gr⟩ := r
    refine ⟨stepsr, gr, rfl, ?_⟩
    exact c5_daily_cap_between_resets cfgT_ok (by norm_num [mT]) (by norm_num [mT])
      le_rfl hgen

/-! ### C8: termination of the main loop.

The proof uses a potential function `phi` over loop states, built from the
reciprocals of the configured caps.  Every firing phase of the loop body
lowers `phi` by at least 1, driving never raises it, and on every iteration
whose successor still has distance to cover at least one phase fires. -/

/-- Weight of a mile still to be driven before the next fueling stop. -/
def phiBeta (cfg : Config) : ℚ :=
  (1 + cfg.FUELING_DURATION / cfg.MAX_DRIVE_WINDOW +
    2 * cfg.FUELING_DURATION / cfg.MAX_CYCLE_HOURS) / cfg.MILES_BEFORE_FUEL

/-- Weight of an hour on the daily-driving counter. -/
def phiGa (cfg : Config) : ℚ := 1 / cfg.MAX_DRIVING_PER_DAY

/-- Weight of an hour on the duty-window counter. -/
def phiGw (cfg : Config) : ℚ := 1 / cfg.MAX_DRIVE_WINDOW

/-- Weight of an hour on the since-last-break counter. -/
def phiGs (cfg : Config) : ℚ :=
  (1 + cfg.BREAK_DURATION / cfg.MAX_DRIVE_WINDOW) / cfg.BREAK_AFTER

/-- Weight of an hour consumed from the 8-day cycle. -/
def phiLam (cfg : Config) : ℚ := 2 / cfg.MAX_CYCLE_HOURS

/-- Potential released by completing the pickup. -/
def phiCP (cfg : Config) : ℚ :=
  1 + cfg.PICKUP_TIME / cfg.MAX_DRIVE_WINDOW +
    2 * cfg.PICKUP_TIME / cfg.MAX_CYCLE_HOURS

/-- Weight of a remaining mile, chosen so that driving is potential-neutral. -/
def phiAlpha (cfg : Config) : ℚ :=
  phiBeta cfg + (phiGa cfg + phiGw cfg + phiGs cfg + phiLam cfg) / cfg.AVG_SPEED_MPH

/-- The termination potential. -/
def phi (cfg : Config) (s : LoopState) : ℚ :=
  phiAlpha cfg * s.remaining_dist + phiBeta cfg * s.miles_since_fuel +
  phiGa cfg * s.current_drive_accumulated + phiGw cfg * s.current_drive_window +
  phiGs cfg * s.drive_accumulated_since_last_break +
  phiLam cfg * (cfg.MAX_CYCLE_HOURS - s.cycle_remaining) +
  (if s.pickup_done then 0 else phiCP cfg) +
  (if 0 < s.cycle_remaining then 1 else 0)

theorem phiBeta_pos {cfg : Config} (h : CfgOK cfg) : 0 < phiBeta cfg := by
  have h1 := h.fuelDur_pos
  have h2 := h.maxWindow_pos
  have h3 := h.maxCycle_pos
  have h4 := h.fuelMiles_pos
  unfold phiBeta
  positivity

theorem phiGa_pos {cfg : Config} (h : CfgOK cfg) : 0 < phiGa cfg := by
  unfold phiGa
  exact div_pos one_pos h.maxDaily_pos

theorem phiGw_pos {cfg : Config} (h : CfgOK cfg) : 0 < phiGw cfg := by
  unfold phiGw
  exact div_pos one_pos h.maxWindow_pos

theorem phiGs_pos {cfg : Config} (h : CfgOK cfg) : 0 < phiGs cfg := by
  have h1 := h.breakDur_pos
  have h2 := h.maxWindow_pos
  have h3 := h.breakAfter_pos
  unfold phiGs
  positivity

theorem phiLam_pos {cfg : Config} (h : CfgOK cfg) : 0 < phiLam cfg := by
  have h1 := h.maxCycle_pos
  unfold phiLam
  positivity

theorem phiCP_pos {cfg : Config} (h : CfgOK cfg) : 0 < phiCP cfg := by
  have h1 := h.pickup_pos
  have h2 := h.maxWindow_pos
  have h3 := h.maxCycle_pos
  unfold phiCP
  positivity

theorem phiAlpha_pos {cfg : Config} (h : CfgOK cfg) : 0 < phiAlpha cfg := by
  have h1 := phiBeta_pos h
  have h2 := phiGa_pos h
  have h3 := phiGw_pos h
  have h4 := phiGs_pos h
  have h5 := phiLam_pos h
  have h6 := h.speed_pos
  unfold phiAlpha
  positivity

theorem phi_nonneg {cfg : Config} {total : ℚ} {s : LoopState} (hcfg : CfgOK cfg)
    (hinv : Inv cfg total s) : 0 ≤ phi cfg s := by
  have h1 : 0 ≤ phiAlpha cfg * s.remaining_dist :=
    mul_nonneg (phiAlpha_pos hcfg).le hinv.R_nonneg
  have h2 : 0 ≤ phiBeta cfg * s.miles_since_fuel :=
    mul_nonneg (phiBeta_pos hcfg).le hinv.f_nonneg
  have h3 : 0 ≤ phiGa cfg * s.current_drive_accumulated :=
    mul_nonneg (phiGa_pos hcfg).le hinv.a_nonneg
  have h4 : 0 ≤ phiGw cfg * s.current_drive_window :=
    mul_nonneg (phiGw_pos hcfg).le hinv.w_nonneg
  have h5 : 0 ≤ phiGs cfg * s.drive_accumulated_since_last_break :=
    mul_nonneg (phiGs_pos hcfg).le hinv.dasb_nonneg
  have h6 : 0 ≤ phiLam cfg * (cfg.MAX_CYCLE_HOURS - s.cycle_remaining) :=
    mul_nonneg (phiLam_pos hcfg).le (by linarith [hinv.cyc_le])
  have h7 : 0 ≤ (if s.pickup_done then (0:ℚ) else phiCP cfg) := by
    split
    · exact le_rfl
    · exact (phiCP_pos hcfg).le
  have h8 : 0 ≤ (if 0 < s.cycle_remaining then (1:ℚ) else 0) := by
    split
    · exact zero_le_one
    · exact le_rfl
  unfold phi
  linarith

/-! #### Projection facts about the phases -/

theorem drive_pd (cfg : Config) (s : LoopState) :
    (drive_phase cfg s).pickup_done = s.pickup_done := by
  by_cases ht : 0 < compute_time_to_drive cfg s
  · rw [drive_phase_fire ht]
    rfl
  · rw [drive_phase_skip ht]

theorem pickup_remaining (cfg : Config) (s : LoopState) :
    (pickup_phase cfg s).remaining_dist = s.remaining_dist := by
  by_cases hp : ¬ s.pickup_done ∧ s.dist_to_pickup_miles ≤ 0
  · rw [pickup_phase_fire hp]
    rfl
  · rw [pickup_phase_skip hp]

theorem pickup_cda (cfg : Config) (s : LoopState) :
    (pickup_phase cfg s).current_drive_accumulated = s.current_drive_accumulated := by
  by_cases hp : ¬ s.pickup_done ∧ s.dist_to_pickup_miles ≤ 0
  · rw [pickup_phase_fire hp]
    rfl
  · rw [pickup_phase_skip hp]

theorem pickup_dasb (cfg : Config) (s : LoopState) :
    (pickup_phase cfg s).drive_accumulated_since_last_break =
      s.drive_accumulated_since_last_break := by
  by_cases hp : ¬ s.pickup_done ∧ s.dist_to_pickup_miles ≤ 0
  · rw [pickup_phase_fire hp]
    rfl
  · rw [pickup_phase_skip hp]

theorem pickup_msf (cfg : Config) (s : LoopState) :
    (pickup_phase cfg s).miles_since_fuel = s.miles_since_fuel := by
  by_cases hp : ¬ s.pickup_done ∧ s.dist_to_pickup_miles ≤ 0
  · rw [pickup_phase_fire hp]
    rfl
  · rw [pickup_phase_skip hp]

theorem pickup_cdw_ge {cfg : Config} (hPU : 0 ≤ cfg.PICKUP_TIME) (s : LoopState) :
    s.current_drive_window ≤ (pickup_phase cfg s).current_drive_window := by
  by_cases hp : ¬ s.pickup_done ∧ s.dist_to_pickup_miles ≤ 0
  · rw [pickup_phase_fire hp]
    show s.current_drive_window ≤ s.current_drive_window + cfg.PICKUP_TIME
    linarith
  · rw [pickup_phase_skip hp]

theorem stop_remaining (cfg : Config) (s : LoopState) :
    (stop_phase cfg s).remaining_dist = s.remaining_dist := by
  by_cases hf : cfg.MILES_BEFORE_FUEL ≤ s.miles_since_fuel
  · rw [stop_phase_fuel hf]
    rfl
  · by_cases hb : cfg.BREAK_AFTER ≤ s.drive_accumulated_since_last_break
    · rw [stop_phase_break hf hb]
      rfl
    · by_cases hs : cfg.MAX_DRIVING_PER_DAY ≤ s.current_drive_accumulated ∨
          cfg.MAX_DRIVE_WINDOW ≤ s.current_drive_window
      · rw [stop_phase_sleeper hf hb hs]
        rfl
      · rw [stop_phase_skip hf hb hs]

/-! #### More facts about pymod and the break budget -/

theorem pymod_le_self {x m : ℚ} (hx : 0 ≤ x) (hm : 0 < m) : pymod x m ≤ x := by
  unfold pymod
  have h1 : (0:ℚ) ≤ (⌊x / m⌋ : ℤ) := by
    exact_mod_cast Int.floor_nonneg.2 (div_nonneg hx hm.le)
  nlinarith

theorem breakBudget_pos {cfg : Config} {s : LoopState} (hBA : 0 < cfg.BREAK_AFTER)
    (_hd : 0 ≤ s.drive_accumulated_since_last_break) : 0 < leftBreakBudget cfg s := by
  unfold leftBreakBudget
  by_cases h : s.drive_accumulated_since_last_break ≠ 0
  · rw [if_pos h]
    have := pymod_lt hBA s.drive_accumulated_since_last_break
    linarith
  · rw [if_neg h]
    linarith

theorem breakBudget_add {cfg : Config} {s : LoopState} (hBA : 0 < cfg.BREAK_AFTER)
    (hd : 0 ≤ s.drive_accumulated_since_last_break) :
    cfg.BREAK_AFTER ≤ s.drive_accumulated_since_last_break + leftBreakBudget cfg s := by
  unfold leftBreakBudget
  by_cases h : s.drive_accumulated_since_last_break ≠ 0
  · rw [if_pos h]
    have := pymod_le_self hd hBA
    linarith
  · rw [if_neg h]
    linarith

/-! #### The potential across each phase -/

theorem phi_restart_fire {cfg : Config} {total : ℚ} {s : LoopState} (hcfg : CfgOK cfg)
    (hinv : Inv cfg total s) (hc : s.cycle_remaining ≤ 0) :
    phi cfg (restart_phase cfg s) ≤ phi cfg s - 1 := by
  rw [restart_phase_fire hc]
  unfold phi
  simp only [emit_remaining_dist, emit_msf, emit_pickup_done, emit_cda, emit_cdw,
    emit_dasb, emit_cyc]
  rw [if_pos hcfg.maxCycle_pos, if_neg (not_lt.2 hc)]
  have e1 : phiLam cfg * (cfg.MAX_CYCLE_HOURS - cfg.MAX_CYCLE_HOURS) = 0 := by ring
  have e2 : phiLam cfg * (cfg.MAX_CYCLE_HOURS - s.cycle_remaining) =
      phiLam cfg * cfg.MAX_CYCLE_HOURS - phiLam cfg * s.cycle_remaining := by ring
  have hlam : phiLam cfg * cfg.MAX_CYCLE_HOURS = 2 := by
    have hM : cfg.MAX_CYCLE_HOURS ≠ 0 := hcfg.maxCycle_pos.ne'
    unfold phiLam
    field_simp
  have h5 : phiLam cfg * s.cycle_remaining ≤ 0 :=
    mul_nonpos_of_nonneg_of_nonpos (phiLam_pos hcfg).le hc
  have n1 : 0 ≤ phiGa cfg * s.current_drive_accumulated :=
    mul_nonneg (phiGa_pos hcfg).le hinv.a_nonneg
  have n2 : 0 ≤ phiGw cfg * s.current_drive_window :=
    mul_nonneg (phiGw_pos hcfg).le hinv.w_nonneg
  have n3 : 0 ≤ phiGs cfg * s.drive_accumulated_since_last_break :=
    mul_nonneg (phiGs_pos hcfg).le hinv.dasb_nonneg
  linarith

theorem phi_drive_eq {cfg : Config} {s : LoopState} (hcfg : CfgOK cfg)
    (ht : 0 < compute_time_to_drive cfg s) :
    phi cfg (drive_phase cfg s) = phi cfg s +
      ((if 0 < s.cycle_remaining - compute_time_to_drive cfg s then (1:ℚ) else 0) -
        (if 0 < s.cycle_remaining then (1:ℚ) else 0)) := by
  have hA : phiAlpha cfg * cfg.AVG_SPEED_MPH =
      phiBeta cfg * cfg.AVG_SPEED_MPH + phiGa cfg + phiGw cfg + phiGs cfg +
        phiLam cfg := by
    have hsp : cfg.AVG_SPEED_MPH ≠ 0 := hcfg.speed_pos.ne'
    unfold phiAlpha
    field_simp
    ring
  rw [drive_phase_fire ht]
  unfold phi
  simp only [emit_remaining_dist, emit_msf, emit_pickup_done, emit_cda, emit_cdw,
    emit_dasb, emit_cyc]
  linear_combination (-(compute_time_to_drive cfg s)) * hA

theorem phi_drive_le {cfg : Config} (hcfg : CfgOK cfg) (s : LoopState) :
    phi cfg (drive_phase cfg s) ≤ phi cfg s := by
  by_cases ht : 0 < compute_time_to_drive cfg s
  · rw [phi_drive_eq hcfg ht]
    have hind : (if 0 < s.cycle_remaining - compute_time_to_drive cfg s then (1:ℚ) else 0) ≤
        (if 0 < s.cycle_remaining then (1:ℚ) else 0) := by
      by_cases h1 : 0 < s.cycle_remaining - compute_time_to_drive cfg s
      · rw [if_pos h1, if_pos (by linarith : (0:ℚ) < s.cycle_remaining)]
      · rw [if_neg h1]
        by_cases h2 : 0 < s.cycle_remaining
        · rw [if_pos h2]
          norm_num
        · rw [if_neg h2]
    linarith
  · rw [drive_phase_skip ht]

theorem phi_drive_cyc {cfg : Config} {s : LoopState} (hcfg : CfgOK cfg)
    (ht : 0 < compute_time_to_drive cfg s)
    (he : compute_time_to_drive cfg s = s.cycle_remaining) :
    phi cfg (drive_phase cfg s) ≤ phi cfg s - 1 := by
  rw [phi_drive_eq hcfg ht]
  have hz : s.cycle_remaining - compute_time_to_drive cfg s = 0 := by
    rw [he]
    ring
  rw [hz, if_neg (lt_irrefl (0:ℚ)), if_pos (he ▸ ht)]
  linarith

theorem phi_pickup_fire {cfg : Config} {s : LoopState} (hcfg : CfgOK cfg)
    (hp : ¬ s.pickup_done ∧ s.dist_to_pickup_miles ≤ 0) :
    phi cfg (pickup_phase cfg s) ≤ phi cfg s - 1 := by
  rw [pickup_phase_fire hp]
  unfold phi
  simp only [emit_remaining_dist, emit_msf, emit_pickup_done, emit_cda, emit_cdw,
    emit_dasb, emit_cyc, if_true]
  rw [if_neg hp.1]
  have hCP : phiCP cfg = 1 + phiGw cfg * cfg.PICKUP_TIME +
      phiLam cfg * cfg.PICKUP_TIME := by
    have hW : cfg.MAX_DRIVE_WINDOW ≠ 0 := hcfg.maxWindow_pos.ne'
    have hM : cfg.MAX_CYCLE_HOURS ≠ 0 := hcfg.maxCycle_pos.ne'
    unfold phiCP phiGw phiLam
    field_simp
  have e2 : phiLam cfg * (cfg.MAX_CYCLE_HOURS - (s.cycle_remaining - cfg.PICKUP_TIME)) =
      phiLam cfg * (cfg.MAX_CYCLE_HOURS - s.cycle_remaining) +
        phiLam cfg * cfg.PICKUP_TIME := by ring
  have hind : (if 0 < s.cycle_remaining - cfg.PICKUP_TIME then (1:ℚ) else 0) ≤
      (if 0 < s.cycle_remaining then (1:ℚ) else 0) := by
    by_cases h1 : 0 < s.cycle_remaining - cfg.PICKUP_TIME
    · rw [if_pos h1, if_pos (by linarith [hcfg.pickup_pos] : (0:ℚ) < s.cycle_remaining)]
    · rw [if_neg h1]
      by_cases h2 : 0 < s.cycle_remaining
      · rw [if_pos h2]
        norm_num
      · rw [if_neg h2]
  linarith

theorem phi_pickup_le {cfg : Config} (hcfg : CfgOK cfg) (s : LoopState) :
    phi cfg (pickup_phase cfg s) ≤ phi cfg s := by
  by_cases hp : ¬ s.pickup_done ∧ s.dist_to_pickup_miles ≤ 0
  · linarith [phi_pickup_fire hcfg hp]
  · rw [pickup_phase_skip hp]

theorem phi_stop_fuel_dec {cfg : Config} {s : LoopState} (hcfg : CfgOK cfg)
    (hf : cfg.MILES_BEFORE_FUEL ≤ s.miles_since_fuel) :
    phi cfg (stop_phase cfg s) ≤ phi cfg s - 1 := by
  rw [stop_phase_fuel hf]
  unfold phi
  simp only [emit_remaining_dist, emit_msf, emit_pickup_done, emit_cda, emit_cdw,
    emit_dasb, emit_cyc]
  have hBT : phiBeta cfg * cfg.MILES_BEFORE_FUEL = 1 +
      phiGw cfg * cfg.FUELING_DURATION + phiLam cfg * cfg.FUELING_DURATION := by
    have hF : cfg.MILES_BEFORE_FUEL ≠ 0 := hcfg.fuelMiles_pos.ne'
    have hW : cfg.MAX_DRIVE_WINDOW ≠ 0 := hcfg.maxWindow_pos.ne'
    have hM : cfg.MAX_CYCLE_HOURS ≠ 0 := hcfg.maxCycle_pos.ne'
    unfold phiBeta phiGw phiLam
    field_simp
    ring
  have hbf : phiBeta cfg * cfg.MILES_BEFORE_FUEL ≤ phiBeta cfg * s.miles_since_fuel :=
    mul_le_mul_of_nonneg_left hf (phiBeta_pos hcfg).le
  have e2 : phiLam cfg * (cfg.MAX_CYCLE_HOURS - (s.cycle_remaining - cfg.FUELING_DURATION)) =
      phiLam cfg * (cfg.MAX_CYCLE_HOURS - s.cycle_remaining) +
        phiLam cfg * cfg.FUELING_DURATION := by ring
  have hind : (if 0 < s.cycle_remaining - cfg.FUELING_DURATION then (1:ℚ) else 0) ≤
      (if 0 < s.cycle_remaining then (1:ℚ) else 0) := by
    by_cases h1 : 0 < s.cycle_remaining - cfg.FUELING_DURATION
    · rw [if_pos h1, if_pos (by linarith [hcfg.fuelDur_pos] : (0:ℚ) < s.cycle_remaining)]
    · rw [if_neg h1]
      by_cases h2 : 0 < s.cycle_remaining
      · rw [if_pos h2]
        norm_num
      · rw [if_neg h2]
  linarith

theorem phi_stop_break_dec {cfg : Config} {s : LoopState} (hcfg : CfgOK cfg)
    (hf : ¬ cfg.MILES_BEFORE_FUEL ≤ s.miles_since_fuel)
    (hb : cfg.BREAK_AFTER ≤ s.drive_accumulated_since_last_break) :
    phi cfg (stop_phase cfg s) ≤ phi cfg s - 1 := by
  rw [stop_phase_break hf hb]
  unfold phi
  simp only [emit_remaining_dist, emit_msf, emit_pickup_done, emit_cda, emit_cdw,
    emit_dasb, emit_cyc]
  have hGS : phiGs cfg * cfg.BREAK_AFTER = 1 + phiGw cfg * cfg.BREAK_DURATION := by
    have hB : cfg.BREAK_AFTER ≠ 0 := hcfg.breakAfter_pos.ne'
    have hW : cfg.MAX_DRIVE_WINDOW ≠ 0 := hcfg.maxWindow_pos.ne'
    unfold phiGs phiGw
    field_simp
    ring
  have hbs : phiGs cfg * cfg.BREAK_AFTER ≤
      phiGs cfg * s.drive_accumulated_since_last_break :=
    mul_le_mul_of_nonneg_left hb (phiGs_pos hcfg).le
  linarith

theorem phi_stop_sleeper_dec {cfg : Config} {s : LoopState} (hcfg : CfgOK cfg)
    (hf : ¬ cfg.MILES_BEFORE_FUEL ≤ s.miles_since_fuel)
    (hb : ¬ cfg.BREAK_AFTER ≤ s.drive_accumulated_since_last_break)
    (hs : cfg.MAX_DRIVING_PER_DAY ≤ s.current_drive_accumulated ∨
      cfg.MAX_DRIVE_WINDOW ≤ s.current_drive_window)
    (ha : 0 ≤ s.current_drive_accumulated) (hw : 0 ≤ s.current_drive_window)
    (hdasb : 0 ≤ s.drive_accumulated_since_last_break) :
    phi cfg (stop_phase cfg s) ≤ phi cfg s - 1 := by
  rw [stop_phase_sleeper hf hb hs]
  unfold phi
  simp only [emit_remaining_dist, emit_msf, emit_pickup_done, emit_cda, emit_cdw,
    emit_dasb, emit_cyc]
  have n3 : 0 ≤ phiGs cfg * s.drive_accumulated_since_last_break :=
    mul_nonneg (phiGs_pos hcfg).le hdasb
  rcases hs with h | h
  · have h1 : phiGa cfg * cfg.MAX_DRIVING_PER_DAY ≤
        phiGa cfg * s.current_drive_accumulated :=
      mul_le_mul_of_nonneg_left h (phiGa_pos hcfg).le
    have hGA : phiGa cfg * cfg.MAX_DRIVING_PER_DAY = 1 := by
      have hD : cfg.MAX_DRIVING_PER_DAY ≠ 0 := hcfg.maxDaily_pos.ne'
      unfold phiGa
      field_simp
    have n2 : 0 ≤ phiGw cfg * s.current_drive_window :=
      mul_nonneg (phiGw_pos hcfg).le hw
    linarith
  · have h1 : phiGw cfg * cfg.MAX_DRIVE_WINDOW ≤ phiGw cfg * s.current_drive_window :=
      mul_le_mul_of_nonneg_left h (phiGw_pos hcfg).le
    have hGW : phiGw cfg * cfg.MAX_DRIVE_WINDOW = 1 := by
      have hW : cfg.MAX_DRIVE_WINDOW ≠ 0 := hcfg.maxWindow_pos.ne'
      unfold phiGw
      field_simp
    have n1 : 0 ≤ phiGa cfg * s.current_drive_accumulated :=
      mul_nonneg (phiGa_pos hcfg).le ha
    linarith

theorem phi_stop_dec {cfg : Config} {s : LoopState} (hcfg : CfgOK cfg)
    (ha : 0 ≤ s.current_drive_accumulated) (hw : 0 ≤ s.current_drive_window)
    (hdasb : 0 ≤ s.drive_accumulated_since_last_break)
    (hcond : cfg.MILES_BEFORE_FUEL ≤ s.miles_since_fuel ∨
      cfg.BREAK_AFTER ≤ s.drive_accumulated_since_last_break ∨
      cfg.MAX_DRIVING_PER_DAY ≤ s.current_drive_accumulated ∨
      cfg.MAX_DRIVE_WINDOW ≤ s.current_drive_window) :
    phi cfg (stop_phase cfg s) ≤ phi cfg s - 1 := by
  by_cases hf : cfg.MILES_BEFORE_FUEL ≤ s.miles_since_fuel
  · exact phi_stop_fuel_dec hcfg hf
  · by_cases hb : cfg.BREAK_AFTER ≤ s.drive_accumulated_since_last_break
    · exact phi_stop_break_dec hcfg hf hb
    · have hs : cfg.MAX_DRIVING_PER_DAY ≤ s.current_drive_accumulated ∨
          cfg.MAX_DRIVE_WINDOW ≤ s.current_drive_window := by
        rcases hcond with h | h | h | h
        · exact absurd h hf
        · exact absurd h hb
        · exact Or.inl h
        · exact Or.inr h
      exact phi_stop_sleeper_dec hcfg hf hb hs ha hw hdasb

theorem phi_stop_le {cfg : Config} {s : LoopState} (hcfg : CfgOK cfg)
    (ha : 0 ≤ s.current_drive_accumulated) (hw : 0 ≤ s.current_drive_window)
    (hdasb : 0 ≤ s.drive_accumulated_since_last_break) :
    phi cfg (stop_phase cfg s) ≤ phi cfg s := by
  by_cases hf : cfg.MILES_BEFORE_FUEL ≤ s.miles_since_fuel
  · linarith [phi_stop_fuel_dec hcfg hf]
  · by_cases hb : cfg.BREAK_AFTER ≤ s.drive_accumulated_since_last_break
    · linarith [phi_stop_break_dec hcfg hf hb]
    · by_cases hs : cfg.MAX_DRIVING_PER_DAY ≤ s.current_drive_accumulated ∨
          cfg.MAX_DRIVE_WINDOW ≤ s.current_drive_window
      · linarith [phi_stop_sleeper_dec hcfg hf hb hs ha hw hdasb]
      · rw [stop_phase_skip hf hb hs]

/-- Key decrease lemma: an iteration of the loop body whose successor state
still has distance to cover lowers the potential by at least 1. -/
theorem phi_body {cfg : Config} {total : ℚ} {s : LoopState} (hcfg : CfgOK cfg)
    (hinv : Inv cfg total s) (hR : 0 < s.remaining_dist)
    (hR' : 0 < (loop_body cfg s).remaining_dist) :
    phi cfg (loop_body cfg s) ≤ phi cfg s - 1 := by
  unfold loop_body at hR' ⊢
  by_cases hc : s.cycle_remaining ≤ 0
  · have h1 : phi cfg (restart_phase cfg s) ≤ phi cfg s - 1 :=
      phi_restart_fire hcfg hinv hc
    have inv1 : Inv cfg total (restart_phase cfg s) := restart_inv hcfg hinv
    have inv3 : Inv cfg total (pickup_phase cfg (drive_phase cfg (restart_phase cfg s))) :=
      pickup_inv hcfg (drive_inv hcfg inv1)
    have h2 := phi_drive_le hcfg (restart_phase cfg s)
    have h3 := phi_pickup_le hcfg (drive_phase cfg (restart_phase cfg s))
    have h4 := phi_stop_le hcfg inv3.a_nonneg inv3.w_nonneg inv3.dasb_nonneg
    linarith
  · rw [restart_phase_skip hc] at hR' ⊢
    have inv3 : Inv cfg total (pickup_phase cfg (drive_phase cfg s)) :=
      pickup_inv hcfg (drive_inv hcfg hinv)
    by_cases ht : 0 < compute_time_to_drive cfg s
    · have h2 := phi_drive_le hcfg s
      have h3 := phi_pickup_le hcfg (drive_phase cfg s)
      have h4 := phi_stop_le hcfg inv3.a_nonneg inv3.w_nonneg inv3.dasb_nonneg
      rcases ttd_cases cfg s with hca | hcb | hcc | hcd | hce
      · have ha2 : (drive_phase cfg s).current_drive_accumulated =
            s.current_drive_accumulated + compute_time_to_drive cfg s := by
          rw [drive_phase_fire ht]
        have hsat : cfg.MAX_DRIVING_PER_DAY ≤
            (pickup_phase cfg (drive_phase cfg s)).current_drive_accumulated := by
          rw [pickup_cda, ha2, hca]
          linarith
        have h5 := phi_stop_dec hcfg inv3.a_nonneg inv3.w_nonneg inv3.dasb_nonneg
          (Or.inr (Or.inr (Or.inl hsat)))
        linarith
      · have hw2 : (drive_phase cfg s).current_drive_window =
            s.current_drive_window + compute_time_to_drive cfg s := by
          rw [drive_phase_fire ht]
        have hsat : cfg.MAX_DRIVE_WINDOW ≤
            (pickup_phase cfg (drive_phase cfg s)).current_drive_window := by
          refine le_trans ?_ (pickup_cdw_ge hcfg.pickup_pos.le (drive_phase cfg s))
          rw [hw2, hcb]
          linarith
        have h5 := phi_stop_dec hcfg inv3.a_nonneg inv3.w_nonneg inv3.dasb_nonneg
          (Or.inr (Or.inr (Or.inr hsat)))
        linarith
      · have hd2 : (drive_phase cfg s).drive_accumulated_since_last_break =
            s.drive_accumulated_since_last_break + compute_time_to_drive cfg s := by
          rw [drive_phase_fire ht]
        have hsat : cfg.BREAK_AFTER ≤
            (pickup_phase cfg (drive_phase cfg s)).drive_accumulated_since_last_break := by
          rw [pickup_dasb, hd2, hcc]
          exact breakBudget_add hcfg.breakAfter_pos hinv.dasb_nonneg
        have h5 := phi_stop_dec hcfg inv3.a_nonneg inv3.w_nonneg inv3.dasb_nonneg
          (Or.inr (Or.inl hsat))
        linarith
      · by_cases hpd : s.pickup_done
        · exfalso
          have hdn : dist_to_next_stop s = s.remaining_dist := by
            unfold dist_to_next_stop
            rw [if_pos hpd]
          have hR2 : (drive_phase cfg s).remaining_dist =
              s.remaining_dist - compute_time_to_drive cfg s * cfg.AVG_SPEED_MPH := by
            rw [drive_phase_fire ht]
          have hms : compute_time_to_drive cfg s * cfg.AVG_SPEED_MPH =
              s.remaining_dist := by
            rw [hcd, hdn]
            exact div_mul_cancel₀ _ hcfg.speed_pos.ne'
          rw [stop_remaining, pickup_remaining, hR2, hms] at hR'
          linarith
        · have hdn : dist_to_next_stop s = s.dist_to_pickup_miles := by
            unfold dist_to_next_stop
            rw [if_neg hpd]
          have hdp2 : (drive_phase cfg s).dist_to_pickup_miles =
              s.dist_to_pickup_miles - compute_time_to_drive cfg s * cfg.AVG_SPEED_MPH := by
            rw [drive_phase_fire ht]
            exact if_pos hpd
          have hms : compute_time_to_drive cfg s * cfg.AVG_SPEED_MPH =
              s.dist_to_pickup_miles := by
            rw [hcd, hdn]
            exact div_mul_cancel₀ _ hcfg.speed_pos.ne'
          have hfire : ¬ (drive_phase cfg s).pickup_done ∧
              (drive_phase cfg s).dist_to_pickup_miles ≤ 0 := by
            constructor
            · rw [drive_pd]
              exact hpd
            · rw [hdp2, hms]
              linarith
          have h5 := phi_pickup_fire hcfg hfire
          linarith
      · have h5 := phi_drive_cyc hcfg ht hce
        linarith
    · rw [drive_phase_skip ht] at hR' ⊢
      have inv2 : Inv cfg total (pickup_phase cfg s) := pickup_inv hcfg hinv
      have hE : 0 < s.cycle_remaining := lt_of_not_le hc
      have hC : 0 < leftBreakBudget cfg s :=
        breakBudget_pos hcfg.breakAfter_pos hinv.dasb_nonneg
      by_cases hD : 0 < dist_to_next_stop s / cfg.AVG_SPEED_MPH
      · by_cases hA : 0 < cfg.MAX_DRIVING_PER_DAY - s.current_drive_accumulated
        · have hB : ¬ 0 < cfg.MAX_DRIVE_WINDOW - s.current_drive_window := by
            intro hB
            refine ht ?_
            unfold compute_time_to_drive
            exact lt_min (lt_min (lt_min (lt_min hA hB) hC) hD) hE
          have hsat : cfg.MAX_DRIVE_WINDOW ≤ (pickup_phase cfg s).current_drive_window :=
            le_trans (by linarith [not_lt.1 hB]) (pickup_cdw_ge hcfg.pickup_pos.le s)
          have h5 := phi_stop_dec hcfg inv2.a_nonneg inv2.w_nonneg inv2.dasb_nonneg
            (Or.inr (Or.inr (Or.inr hsat)))
          have h3 := phi_pickup_le hcfg s
          linarith
        · have hsat : cfg.MAX_DRIVING_PER_DAY ≤
              (pickup_phase cfg s).current_drive_accumulated := by
            rw [pickup_cda]
            linarith [not_lt.1 hA]
          have h5 := phi_stop_dec hcfg inv2.a_nonneg inv2.w_nonneg inv2.dasb_nonneg
            (Or.inr (Or.inr (Or.inl hsat)))
          have h3 := phi_pickup_le hcfg s
          linarith
      · have hdist : dist_to_next_stop s ≤ 0 := by
          by_contra hpos
          push_neg at hpos
          exact hD (div_pos hpos hcfg.speed_pos)
        by_cases hpd : s.pickup_done
        · exfalso
          have heq : dist_to_next_stop s = s.remaining_dist := by
            unfold dist_to_next_stop
            rw [if_pos hpd]
          rw [heq] at hdist
          linarith
        · have hfire : ¬ s.pickup_done ∧ s.dist_to_pickup_miles ≤ 0 := by
            refine ⟨hpd, ?_⟩
            have heq : dist_to_next_stop s = s.dist_to_pickup_miles := by
              unfold dist_to_next_stop
              rw [if_neg hpd]
            rw [heq] at hdist
            exact hdist
          have h5 := phi_pickup_fire hcfg hfire
          have h4 := phi_stop_le hcfg inv2.a_nonneg inv2.w_nonneg inv2.dasb_nonneg
          linarith

/-- With fuel exceeding the initial potential, the loop reaches its exit. -/
theorem loopGo_succeeds {cfg : Config} {total : ℚ} (hcfg : CfgOK cfg) :
    ∀ (n : ℕ) (s : LoopState), Inv cfg total s → (⌈phi cfg s⌉).toNat < n →
      ∃ s', loopGo cfg n s = some s' := by
  intro n
  induction n with
  | zero =>
    intro s _ hlt
    exact absurd hlt (Nat.not_lt_zero _)
  | succ n ih =>
    intro s hinv hlt
    by_cases hr : 0 < s.remaining_dist
    · by_cases hr2 : 0 < (loop_body cfg s).remaining_dist
      · have hdec := phi_body hcfg hinv hr hr2
        have hinv' := body_inv hcfg hinv
        have h0 : 0 ≤ ⌈phi cfg (loop_body cfg s)⌉ :=
          Int.ceil_nonneg (phi_nonneg hcfg hinv')
        have hcl : ⌈phi cfg (loop_body cfg s)⌉ + 1 ≤ ⌈phi cfg s⌉ := by
          have h2 := Int.ceil_mono hdec
          rw [Int.ceil_sub_one] at h2
          omega
        obtain ⟨s', hs'⟩ := ih (loop_body cfg s) hinv' (by omega)
        refine ⟨s', ?_⟩
        unfold loopGo
        rw [if_pos hr]
        exact hs'
      · refine ⟨loop_body cfg s, ?_⟩
        unfold loopGo
        rw [if_pos hr]
        exact loopGo_exit hr2 n
    · refine ⟨s, ?_⟩
      unfold loopGo
      rw [if_neg hr]

/-- C8: under a validated configuration — every duration, cap and speed
constant positive — and non-negative input distances, `generate_steps`
terminates: some finite loop fuel suffices for the call to return a schedule.
The proof mirrors the claim's argument: each iteration of the
`while remaining_dist > 0` body either performs a positive drive quantum or
fires a restart/pickup/stop that strictly lowers a potential built from the
counters, so the loop guard fails after finitely many iterations. -/
theorem c8_termination {cfg : Config} (hcfg : CfgOK cfg) (cu p d : ℚ)
    (hp : 0 ≤ p) (hd : 0 ≤ d) (hcu : 0 ≤ cu) :
    ∃ (fuel : ℕ) (steps : List Segment) (g' : StepsGenerator),
      generate_steps cfg (stepsGenerator_init cfg cu) p d fuel = some (steps, g') := by
  have hinv := init_inv hcfg hp hd (init_cycle_le hcu)
  obtain ⟨s', hs'⟩ := loopGo_succeeds hcfg
    ((⌈phi cfg (init_state cfg (stepsGenerator_init cfg cu) p d)⌉).toNat + 1) _ hinv
    (Nat.lt_succ_self _)
  refine ⟨(⌈phi cfg (init_state cfg (stepsGenerator_init cfg cu) p d)⌉).toNat + 1,
    (final_phase cfg s').steps, ⟨(final_phase cfg s').cycle_remaining⟩, ?_⟩
  unfold generate_steps
  rw [hs']

/-- Witness for C8 at the test configuration and a concrete trip. -/
theorem c8_witness : ∃ (fuel : ℕ) (steps : List Segment) (g' : StepsGenerator),
    generate_steps cfgT (stepsGenerator_init cfgT 0) mT mT fuel = some (steps, g') :=
  c8_termination cfgT_ok 0 mT mT (by norm_num [mT]) (by norm_num [mT]) le_rfl

end Dlogs
